import Mathlib

/-!
# ArticFox-V1: the number sequence game of `bot.js`

A shallow embedding of the two event handlers of `src/bot.js`
(`client.on('interactionCreate')`, lines 77-141, and
`client.on('messageCreate')`, lines 144-185) as pure functions from a state and
an event to a new state and the list of outbound calls made, in call order.

Modelling conventions.

* The three module-level variables `warnings`, `expectedNumber` and
  `allowedChannelId` (lines 66-69) are the fields of `State`.
* JavaScript numbers are IEEE 754 doubles. Every number the handlers meet is
  an integer or an infinity, so a finite number is the `Int` it equals and
  arithmetic rounds to the nearest double, ties to even (`roundInt`):
  `expectedNumber++` is `increment`, which leaves 2^53 as it is. `===` on
  numbers is equality (so `-0` is `0`), `NaN` is `none`. `parseInt` rounds the
  digit run it reads to the nearest double, as V8 does, and gives an infinity
  from 2^1024 on.
* Discord identifiers (snowflakes) are `Nat`. A snowflake is a non-empty
  string, so `!allowedChannelId` holds exactly for `null`.
* The `warnings` object is a map from user identifier to count; an absent
  key (`undefined`) is `none`.
* Answers of the platform that a handler branches on (the permission query,
  the outcome of `guild.bans.fetch()`) are fields of the event.
* A handler runs to its end before the next event is handled, and the
  continuation of a promise that is not awaited is placed where the promise is
  made.
-/

namespace ArticFox

/-! ## Identifiers, outbound calls -/

abbrev UserId := Nat

abbrev ChannelId := Nat

/-- The three feedback messages of the game (lines 160, 175, 179). -/
inductive Feedback where
  | correct
  | wrongNumber (expected : Int) (remaining : Int)
  | maxWarningsReached (author : UserId)
  deriving DecidableEq

/-- The final replies of the four slash commands (lines 90-138). -/
inductive Reply where
  | channelSet
  | noPermissionSetChannel
  | sequenceReset (startLimit : Int)
  | noPermissionResetSequence
  | noBannedUsers
  | allUnbanned
  | fetchBansError
  | noPermissionUnban
  | warningsReset (tag : String)
  | noWarnings (tag : String)
  | noPermissionResetWarn
  deriving DecidableEq

/-- The text of a feedback message, as the template literals of lines 160,
175 and 179 build it for numbers below 10^21 in absolute value; a user is
written as a mention. -/
def Feedback.text : Feedback → String
  | Feedback.correct => "Correct!"
  | Feedback.wrongNumber expected remaining =>
    "⚠️ Wrong number! The next number should be **" ++ toString expected ++
      "**. You have " ++ toString remaining ++ " warning(s) left."
  | Feedback.maxWarningsReached author =>
    "<@" ++ toString author ++ ">, you have reached the maximum number of warnings."

/-- The text of a reply, as passed to `interaction.editReply`. -/
def Reply.text : Reply → String
  | Reply.channelSet => "This channel is now set for the number sequence game."
  | Reply.noPermissionSetChannel => "You do not have permission to set the channel."
  | Reply.sequenceReset startLimit =>
    "The number sequence has been reset to " ++ toString startLimit ++ "."
  | Reply.noPermissionResetSequence => "You do not have permission to reset the sequence."
  | Reply.noBannedUsers => "There are no banned users."
  | Reply.allUnbanned => "All users have been unbanned."
  | Reply.fetchBansError => "An error occurred while fetching bans."
  | Reply.noPermissionUnban => "You do not have permission to unban users."
  | Reply.warningsReset tag => "Warnings for " ++ tag ++ " have been reset."
  | Reply.noWarnings tag => tag ++ " has no warnings."
  | Reply.noPermissionResetWarn => "You do not have permission to reset warnings."

/-- Calls a handler makes on the platform, in the order it makes them.
`send` is `message.channel.send`, whose continuation schedules the deletion
of the sent message after 5000 ms; `deleteMessage` is `message.delete()` on
the message being handled. -/
inductive Action where
  | deferReply
  | editReply (r : Reply)
  | fetchBans
  | unban (user : UserId)
  | logError
  | uncaughtTypeError
  | deleteMessage
  | send (f : Feedback)
  deriving DecidableEq

/-! ## State (lines 66-69) -/

structure State where
  warnings : UserId → Option Int
  expectedNumber : Int
  allowedChannelId : Option ChannelId

/-- Line 67. -/
def maxWarnings : Int := 3

/-- The values the module-level variables are given at lines 66-69. -/
def State.init : State :=
  { warnings := fun _ => none, expectedNumber := 1, allowedChannelId := none }

/-- Truthiness of `warnings[id]`: `undefined` and `0` are falsy. -/
def truthy : Option Int → Bool
  | none => false
  | some c => c != 0

/-! ## Numbers -/

/-- The number of binary digits of `a`, by halving; `fuel` bounds the number
of halvings. -/
def bitLengthAux : Nat → Nat → Nat
  | 0, _ => 0
  | fuel + 1, a => if a = 0 then 0 else bitLengthAux fuel (a / 2) + 1

/-- The number of binary digits of `a`. -/
def bitLength (a : Nat) : Nat := bitLengthAux a a

/-- A natural number rounded to 53 significant binary digits, to the nearest
and on a tie to the even one: below 2^53 = 9007199254740992 every natural
number is a double; from there on the doubles are the multiples `m * q` of
`q = 2 ^ (bitLength a - 53)`. -/
def roundNat (a : Nat) : Nat :=
  if a < 9007199254740992 then a
  else
    let q := 2 ^ (bitLength a - 53)
    let m := a / q
    let r := a % q
    if q < 2 * r ∨ (2 * r = q ∧ m % 2 = 1) then (m + 1) * q else m * q

/-- An integer rounded to the nearest double; the overflow to an infinity
is left to `toNumber`. -/
def roundInt (z : Int) : Int :=
  if z < 0 then -(roundNat z.natAbs : Int) else (roundNat z.natAbs : Int)

/-- A JavaScript number other than `NaN` that `parseInt` can return: a
double with an integer value, or an infinity. -/
inductive Number where
  | finite (value : Int)
  | infinity (negative : Bool)
  deriving DecidableEq

/-- The double nearest to an integer: an infinity when the rounded magnitude
reaches 2^1024. -/
def toNumber (z : Int) : Number :=
  if 1024 < bitLength (roundNat z.natAbs) then Number.infinity (decide (z < 0))
  else Number.finite (roundInt z)

/-- `x++` on a finite double `x`: the double nearest to `x + 1`. -/
def increment (x : Int) : Int := roundInt (x + 1)

/-! ## Text: `trim`, `split(/\s+/)`, `parseInt` (lines 148-151) -/

/-- The characters matched by `\s`, which are also the ones `trim` and
`parseInt` strip: WhiteSpace and LineTerminator of ECMAScript. -/
def isWhiteSpace (c : Char) : Bool :=
  let n := c.toNat
  n == 9 || n == 10 || n == 11 || n == 12 || n == 13 || n == 32 || n == 160 ||
  n == 5760 || (8192 ≤ n && n ≤ 8202) || n == 8232 || n == 8233 || n == 8239 ||
  n == 8287 || n == 12288 || n == 65279

/-- `String.prototype.trim`. -/
def trim (s : List Char) : List Char :=
  ((s.dropWhile isWhiteSpace).reverse.dropWhile isWhiteSpace).reverse

/-- `split(/\s+/)` as a scan; `inSep` tells that the previous character was
white space, so that a run of white space separates once. -/
def splitGo : Bool → List Char → List (List Char)
  | _, [] => [[]]
  | inSep, c :: cs =>
    if isWhiteSpace c then
      if inSep then splitGo true cs else [] :: splitGo true cs
    else
      match splitGo false cs with
      | t :: ts => (c :: t) :: ts
      | [] => [[c]]

/-- `s.split(/\s+/)`: the pieces between maximal runs of white space; the
empty string gives one empty piece. -/
def split (s : List Char) : List (List Char) := splitGo false s

/-- The value of a character as a digit in the given radix, if it is one. -/
def digitValue (radix : Nat) (c : Char) : Option Nat :=
  let n := c.toNat
  let v : Option Nat :=
    if 48 ≤ n ∧ n ≤ 57 then some (n - 48)
    else if 97 ≤ n ∧ n ≤ 122 then some (n - 87)
    else if 65 ≤ n ∧ n ≤ 90 then some (n - 55)
    else none
  v.filter (fun d => decide (d < radix))

/-- The values of the longest run of digits of the radix at the front. -/
def leadingDigits (radix : Nat) : List Char → List Nat
  | [] => []
  | c :: cs =>
    match digitValue radix c with
    | some d => d :: leadingDigits radix cs
    | none => []

/-- The number written by a list of digit values, most significant first. -/
def digitsValue (radix : Nat) (ds : List Nat) : Nat :=
  ds.foldl (fun acc d => acc * radix + d) 0

/-- The sign step of `parseInt`: a leading `-` makes the sign negative, and a
leading `-` or `+` is removed. -/
def readSign : List Char → Bool × List Char
  | '-' :: r => (true, r)
  | '+' :: r => (false, r)
  | s => (false, s)

/-- The radix step of `parseInt` when no radix is given: a leading `0x` or
`0X` is removed and selects radix 16, otherwise the radix is 10. -/
def readRadix : List Char → Nat × List Char
  | '0' :: 'x' :: r => (16, r)
  | '0' :: 'X' :: r => (16, r)
  | r => (10, r)

/-- `parseInt(string)` with no radix argument: leading white space is
skipped, then an optional sign, then an optional `0x` or `0X` that selects
radix 16, then the longest run of digits; what follows is ignored. No digit
gives `NaN`, here `none`; otherwise the result is the double nearest to the
signed value of the digit run. -/
def parseInt (input : List Char) : Option Number :=
  let signed := readSign (input.dropWhile isWhiteSpace)
  let based := readRadix signed.2
  let z := leadingDigits based.1 based.2
  if z.isEmpty then none
  else if signed.1 then some (toNumber (-(digitsValue based.1 z : Int)))
  else some (toNumber (digitsValue based.1 z : Int))

/-- The pieces of the trimmed message body (lines 148 and 151, up to
`split`). -/
def tokens (content : String) : List (List Char) :=
  split (trim content.toList)

/-- Line 151: `split(/\s+/).map(num => parseInt(num)).filter(num => !isNaN(num))`
on the trimmed content. -/
def numbers (content : String) : List Number :=
  ((tokens content).map parseInt).filterMap id

/-! ## Events -/

structure Member where
  permissionsHasManageGuild : Bool

/-- Lines 72-74. -/
def hasManageServerPermission (member : Member) : Bool :=
  member.permissionsHasManageGuild

structure User where
  id : UserId
  tag : String

/-- An interaction from a guild as `interactionCreate` reads it (so that
`member`, `guild` and `channel` are present): `start` is
`options.getInteger('start')` and `user` is `options.getUser('user')`, `none`
standing for `null`; `guildBans` is what `guild.bans.fetch()` settles to,
`none` for a rejection. -/
structure Interaction where
  isChatInputCommand : Bool
  commandName : String
  member : Member
  channelId : ChannelId
  start : Option Int
  user : Option User
  guildBans : Option (List UserId)

structure Message where
  authorBot : Bool
  authorId : UserId
  channelId : ChannelId
  content : String

/-! ## `client.on('interactionCreate')` (lines 77-141) -/

/-- Lines 86-94. -/
def setnumberchannel (i : Interaction) (r : State × List Action) : State × List Action :=
  if i.commandName = "setnumberchannel" then
    if hasManageServerPermission i.member then
      ({ r.1 with allowedChannelId := some i.channelId, expectedNumber := 1 },
        r.2 ++ [Action.editReply Reply.channelSet])
    else (r.1, r.2 ++ [Action.editReply Reply.noPermissionSetChannel])
  else r

/-- Lines 97-105. `options.getInteger('start') || 1`: `null` and `0` are
falsy. -/
def resetsequence (i : Interaction) (r : State × List Action) : State × List Action :=
  if i.commandName = "resetsequence" then
    if hasManageServerPermission i.member then
      let startLimit : Int :=
        match i.start with
        | some n => if n = 0 then 1 else n
        | none => 1
      ({ r.1 with expectedNumber := startLimit },
        r.2 ++ [Action.editReply (Reply.sequenceReset startLimit)])
    else (r.1, r.2 ++ [Action.editReply Reply.noPermissionResetSequence])
  else r

/-- Lines 108-125. The promise of `bans.fetch()` is not awaited; its
continuation is placed right after the call. -/
def unbanall (i : Interaction) (r : State × List Action) : State × List Action :=
  if i.commandName = "unbanall" then
    if hasManageServerPermission i.member then
      match i.guildBans with
      | some bans =>
        if bans.length = 0 then
          (r.1, r.2 ++ [Action.fetchBans, Action.editReply Reply.noBannedUsers])
        else
          (r.1, r.2 ++ [Action.fetchBans] ++ bans.map Action.unban ++
            [Action.editReply Reply.allUnbanned])
      | none =>
        (r.1, r.2 ++ [Action.fetchBans, Action.editReply Reply.fetchBansError,
          Action.logError])
    else (r.1, r.2 ++ [Action.editReply Reply.noPermissionUnban])
  else r

/-- Lines 128-140. The option `user` is declared required (line 42); were
`options.getUser('user')` null, `user.id` would throw. -/
def resetwarn (i : Interaction) (r : State × List Action) : State × List Action :=
  if i.commandName = "resetwarn" then
    if hasManageServerPermission i.member then
      match i.user with
      | some user =>
        if truthy (r.1.warnings user.id) then
          ({ r.1 with warnings := Function.update r.1.warnings user.id none },
            r.2 ++ [Action.editReply (Reply.warningsReset user.tag)])
        else (r.1, r.2 ++ [Action.editReply (Reply.noWarnings user.tag)])
      | none => (r.1, r.2 ++ [Action.uncaughtTypeError])
    else (r.1, r.2 ++ [Action.editReply Reply.noPermissionResetWarn])
  else r

/-- The handler of `interactionCreate`: the guard of line 78, the deferred
reply of line 83, then the four command blocks in source order. -/
def interactionCreate (s : State) (i : Interaction) : State × List Action :=
  if !i.isChatInputCommand then (s, [])
  else
    resetwarn i (unbanall i (resetsequence i (setnumberchannel i (s, [Action.deferReply]))))

/-! ## `client.on('messageCreate')` (lines 144-185) -/

/-- The body of the `forEach` of lines 158-184 for one number. The
increments and the subtraction are those of doubles. -/
def handleNumber (author : UserId) (r : State × List Action) (number : Number) :
    State × List Action :=
  if number = Number.finite r.1.expectedNumber then
    ({ r.1 with expectedNumber := increment r.1.expectedNumber },
      r.2 ++ [Action.send Feedback.correct])
  else
    let count : Int :=
      match r.1.warnings author with
      | some c => if !truthy (some c) then 1 else increment c
      | none => 1
    let remainingWarnings := roundInt (maxWarnings - count)
    ({ r.1 with warnings := Function.update r.1.warnings author (some count) },
      r.2 ++ [Action.deleteMessage,
        if remainingWarnings > 0 then
          Action.send (Feedback.wrongNumber r.1.expectedNumber remainingWarnings)
        else Action.send (Feedback.maxWarningsReached author)])

/-- The handler of `messageCreate`. -/
def messageCreate (s : State) (message : Message) : State × List Action :=
  if message.authorBot || s.allowedChannelId.isNone ||
      s.allowedChannelId != some message.channelId then (s, [])
  else
    let nums := numbers message.content
    if nums.length = 0 then (s, [Action.deleteMessage])
    else nums.foldl (handleNumber message.authorId) (s, [])

/-! ## Runs -/

inductive Event where
  | interaction (i : Interaction)
  | message (m : Message)

/-- One event handled from a state. -/
def step (s : State) : Event → State × List Action
  | Event.interaction i => interactionCreate s i
  | Event.message m => messageCreate s m

/-- Events handled one after the other; the calls are collected in order. -/
def run : State → List Event → State × List Action
  | s, [] => (s, [])
  | s, e :: es =>
    let r := step s e
    let r2 := run r.1 es
    (r2.1, r.2 ++ r2.2)

/-- Chat messages handled one after the other. -/
def runMessages (s : State) (ms : List Message) : State × List Action :=
  run s (ms.map Event.message)

/-! ## Vocabulary of the statements -/

/-- A list of numbers that counts up from the integer `n` in steps of one. -/
def CountsFrom : Int → List Number → Prop
  | _, [] => True
  | n, x :: xs => x = Number.finite n ∧ CountsFrom (n + 1) xs

instance decidableCountsFrom : ∀ (n : Int) (l : List Number), Decidable (CountsFrom n l)
  | _, [] => isTrue trivial
  | n, x :: xs =>
    have := decidableCountsFrom (n + 1) xs
    (inferInstance : Decidable (x = Number.finite n ∧ CountsFrom (n + 1) xs))

/-- The expected number after `k` affirmations from `x`. -/
def advance : Int → Nat → Int
  | x, 0 => x
  | x, k + 1 => advance (increment x) k

/-- Every number of the list is the expected one when its turn comes, from
`x` expected: the loop of lines 158-184 takes the first branch throughout. -/
def AllCorrect : Int → List Number → Prop
  | _, [] => True
  | x, y :: ys => y = Number.finite x ∧ AllCorrect (increment x) ys

instance decidableAllCorrect : ∀ (x : Int) (l : List Number), Decidable (AllCorrect x l)
  | _, [] => isTrue trivial
  | x, y :: ys =>
    have := decidableAllCorrect (increment x) ys
    (inferInstance : Decidable (y = Number.finite x ∧ AllCorrect (increment x) ys))

/-- The count of the author after a wrong number, from the entry before
(lines 166-170): 1 for no entry or a zero entry, the incremented count
otherwise. -/
def countAfterWrong : Option Int → Int
  | some c => if c = 0 then 1 else increment c
  | none => 1

/-- The feedback of a wrong guess that brings the count of the author to
`count`, with `expected` the number then expected (lines 172-182). -/
def warningFeedback (expected : Int) (author : UserId) (count : Int) : Feedback :=
  if roundInt (maxWarnings - count) > 0 then
    Feedback.wrongNumber expected (roundInt (maxWarnings - count))
  else Feedback.maxWarningsReached author

/-- An event that is not a `resetsequence` of an invoker with the permission
with a start below 1. -/
def StartAtLeastOne : Event → Prop
  | Event.interaction i =>
    i.isChatInputCommand = true → i.commandName = "resetsequence" →
      hasManageServerPermission i.member = true → ∀ n : Int, i.start = some n → 1 ≤ n
  | Event.message _ => True

/-- A chat message that is a wrong guess of user `u` in state `s`: it
reaches the number loop, `u` wrote it, and one of its numbers is not the
expected one when its turn comes, so that the loop takes the wrong-number
branch. -/
def IsWrongGuessBy (u : UserId) (s : State) (m : Message) : Prop :=
  m.authorBot = false ∧ s.allowedChannelId = some m.channelId ∧ m.authorId = u ∧
    ¬ AllCorrect s.expectedNumber (numbers m.content)

/-- No event of the run is a wrong guess of `u` in the state it is handled
in. -/
def NoWrongGuessBy (u : UserId) : State → List Event → Prop
  | _, [] => True
  | s, Event.interaction i :: es => NoWrongGuessBy u (interactionCreate s i).1 es
  | s, Event.message m :: es =>
    ¬ IsWrongGuessBy u s m ∧ NoWrongGuessBy u (messageCreate s m).1 es

/-- Pieces written one after the other with one space in between. -/
def joinTokens : List (List Char) → List Char
  | [] => []
  | [t] => t
  | t :: u :: ts => t ++ Char.ofNat 32 :: joinTokens (u :: ts)

/-- The message body with only the pieces kept that satisfy `keep`, in
order. -/
def keepTokens (keep : List Char → Bool) (content : String) : String :=
  String.mk (joinTokens ((tokens content).filter keep))

/-- A piece from which `parseInt` reads a number. -/
def parses (t : List Char) : Bool := (parseInt t).isSome

/-- Pieces that are not empty and hold no white space. -/
def GoodTokens (ts : List (List Char)) : Prop :=
  ∀ t ∈ ts, t ≠ [] ∧ ∀ c ∈ t, isWhiteSpace c = false

/-- The characters `0` to `9`. -/
def isDecimalDigit (c : Char) : Bool := decide (48 ≤ c.toNat ∧ c.toNat ≤ 57)

/-- An integer token in the words of the claims: an optionally signed run of
decimal digits. -/
def specIsIntegerToken : List Char → Bool
  | '-' :: r => !r.isEmpty && r.all isDecimalDigit
  | '+' :: r => !r.isEmpty && r.all isDecimalDigit
  | r => !r.isEmpty && r.all isDecimalDigit

/-- The value of the decimal digits of a run. -/
def decimalValue (r : List Char) : Nat :=
  digitsValue 10 (r.map (fun c => c.toNat - 48))

/-- The integer an optionally signed run of decimal digits writes. -/
def specIntegerValue : List Char → Int
  | '-' :: r => -(decimalValue r : Int)
  | '+' :: r => (decimalValue r : Int)
  | r => (decimalValue r : Int)

/-! ## Example states and events -/

/-- A state with channel 7 configured, no warning entry and the given
expected number. -/
def exampleState (expected : Int) : State :=
  { warnings := fun _ => none, expectedNumber := expected, allowedChannelId := some 7 }

/-- A state with a channel, a count for user 1 and 5 expected. -/
def warnedState : State :=
  { warnings := fun u => if u = 1 then some 2 else none, expectedNumber := 5,
    allowedChannelId := some 7 }

/-- A state in which the count of user 1 is 2^53. -/
def saturatedState : State :=
  { warnings := fun u => if u = 1 then some 9007199254740992 else none, expectedNumber := 5,
    allowedChannelId := some 7 }

/-- A command of the given name from a member with the given permission, in
channel 9, with `start = 10`, target user 1 and two banned users. -/
def exampleCommand (name : String) (privileged : Bool) : Interaction :=
  { isChatInputCommand := true, commandName := name, member := ⟨privileged⟩, channelId := 9,
    start := some 10, user := some ⟨1, "fox#0001"⟩, guildBans := some [3, 4] }

/-- The events that lead from the initial state to 2^53 expected in channel
7: `setnumberchannel`, `resetsequence` with start 2^53 - 1, and the guess
2^53 - 1. -/
def eventsToTwoPow53 : List Event :=
  [Event.interaction
      { isChatInputCommand := true, commandName := "setnumberchannel", member := ⟨true⟩,
        channelId := 7, start := none, user := none, guildBans := none },
    Event.interaction
      { isChatInputCommand := true, commandName := "resetsequence", member := ⟨true⟩,
        channelId := 7, start := some 9007199254740991, user := none, guildBans := none },
    Event.message ⟨false, 2, 7, "9007199254740991"⟩]

/-- The guesses 1, 2, 3 of three users, one per message. -/
def threeCorrectGuesses : List Message :=
  [⟨false, 1, 7, "1"⟩, ⟨false, 2, 7, "2"⟩, ⟨false, 3, 7, "3"⟩]

/-- The guesses 2^53 - 1 and 2^53, one per message. -/
def guessesAcrossTwoPow53 : List Message :=
  [⟨false, 1, 7, "9007199254740991"⟩, ⟨false, 2, 7, "9007199254740992"⟩]

/-- Four wrong guesses in a row of user 1 while 5 is expected. -/
def fourWrongGuesses : List Message :=
  [⟨false, 1, 7, "9"⟩, ⟨false, 1, 7, "3"⟩, ⟨false, 1, 7, "6"⟩, ⟨false, 1, 7, "1"⟩]

/-- A run from the initial state: the channel is set, 1, 2 and 3 are
counted, the sequence is reset to 10, and a wrong guess follows. -/
def exampleRun : List Event :=
  [Event.interaction
      { isChatInputCommand := true, commandName := "setnumberchannel", member := ⟨true⟩,
        channelId := 7, start := none, user := none, guildBans := none },
    Event.message ⟨false, 1, 7, "1"⟩,
    Event.message ⟨false, 2, 7, "2 3"⟩,
    Event.interaction
      { isChatInputCommand := true, commandName := "resetsequence", member := ⟨true⟩,
        channelId := 7, start := some 10, user := none, guildBans := none },
    Event.message ⟨false, 1, 7, "12"⟩]

/-- After the reset of user 1 in `warnedState`: user 2 guesses wrong, user 1
counts 5, a member without the permission tries a command; then user 1 guesses
wrong. -/
def eventsBeforeNextWrongGuess : List Event :=
  [Event.message ⟨false, 2, 7, "8"⟩, Event.message ⟨false, 1, 7, "5"⟩,
    Event.interaction (exampleCommand "resetsequence" false)]

/-! ## Rounding -/

theorem bitLengthAux_lt (fuel a : Nat) (h : a ≤ fuel) : a < 2 ^ bitLengthAux fuel a := by
  induction fuel generalizing a with
  | zero =>
    have : a = 0 := by omega
    simp [this, bitLengthAux]
  | succ fuel ih =>
    unfold bitLengthAux
    split
    · rename_i h0
      simp [h0]
    · have := ih (a / 2) (by omega)
      rw [pow_succ]
      omega

theorem bitLengthAux_le (fuel a : Nat) (h : a ≤ fuel) (h0 : a ≠ 0) :
    2 ^ (bitLengthAux fuel a - 1) ≤ a := by
  induction fuel generalizing a with
  | zero => omega
  | succ fuel ih =>
    unfold bitLengthAux
    rw [if_neg h0]
    simp only [Nat.add_sub_cancel]
    by_cases h2 : a / 2 = 0
    · have : bitLengthAux fuel (a / 2) = 0 := by
        rw [h2]
        cases fuel <;> simp [bitLengthAux]
      rw [this]
      simp
      omega
    · have := ih (a / 2) (by omega) h2
      have hb : 1 ≤ bitLengthAux fuel (a / 2) := by
        cases fuel with
        | zero => omega
        | succ f =>
          unfold bitLengthAux
          rw [if_neg h2]
          omega
      have e : bitLengthAux fuel (a / 2) = (bitLengthAux fuel (a / 2) - 1) + 1 := by omega
      rw [e, pow_succ]
      omega

/-- Below 2^53 rounding changes nothing. -/
theorem roundNat_of_lt (a : Nat) (h : a < 9007199254740992) : roundNat a = a := by
  simp [roundNat, h]

/-- Rounding does not take a number from 2^53 on below 2^53. -/
theorem le_roundNat (a : Nat) (h : 9007199254740992 ≤ a) : 9007199254740992 ≤ roundNat a := by
  have hlt := bitLengthAux_lt a a le_rfl
  have hle := bitLengthAux_le a a le_rfl (by omega)
  have hb : 54 ≤ bitLengthAux a a := by
    by_contra hc
    have : 2 ^ bitLengthAux a a ≤ 2 ^ 53 := Nat.pow_le_pow_right (by norm_num) (by omega)
    norm_num at this
    omega
  have hq : 2 ^ (bitLengthAux a a - 1) = 4503599627370496 * 2 ^ (bitLengthAux a a - 53) := by
    have : bitLengthAux a a - 1 = 52 + (bitLengthAux a a - 53) := by omega
    rw [this, pow_add]
    norm_num
  have hq2 : 2 ≤ 2 ^ (bitLengthAux a a - 53) := by
    have : 2 ^ 1 ≤ 2 ^ (bitLengthAux a a - 53) := Nat.pow_le_pow_right (by norm_num) (by omega)
    simpa using this
  have hm : 4503599627370496 ≤ a / 2 ^ (bitLengthAux a a - 53) := by
    rw [Nat.le_div_iff_mul_le (by positivity)]
    omega
  have hmq : 9007199254740992 ≤
      a / 2 ^ (bitLengthAux a a - 53) * 2 ^ (bitLengthAux a a - 53) := by
    calc 9007199254740992 = 4503599627370496 * 2 := by norm_num
      _ ≤ a / 2 ^ (bitLengthAux a a - 53) * 2 ^ (bitLengthAux a a - 53) :=
        Nat.mul_le_mul hm hq2
  unfold roundNat
  rw [if_neg (by omega)]
  simp only [bitLength]
  split
  · calc 9007199254740992 ≤
          a / 2 ^ (bitLengthAux a a - 53) * 2 ^ (bitLengthAux a a - 53) := hmq
      _ ≤ (a / 2 ^ (bitLengthAux a a - 53) + 1) * 2 ^ (bitLengthAux a a - 53) :=
        Nat.mul_le_mul_right _ (by omega)
  · exact hmq

/-- The integers from -2^53 to 2^53 are doubles. -/
theorem roundInt_of_le (z : Int) (h1 : -9007199254740992 ≤ z) (h2 : z ≤ 9007199254740992) :
    roundInt z = z := by
  have h53 : roundNat 9007199254740992 = 9007199254740992 := by decide
  unfold roundInt
  by_cases hz : z < 0
  · rw [if_pos hz]
    by_cases he : z.natAbs = 9007199254740992
    · rw [he, h53]
      omega
    · rw [roundNat_of_lt _ (by omega)]
      omega
  · rw [if_neg hz]
    by_cases he : z.natAbs = 9007199254740992
    · rw [he, h53]
      omega
    · rw [roundNat_of_lt _ (by omega)]
      omega

/-- Rounding keeps a number that is not positive from becoming positive. -/
theorem roundInt_nonpos (z : Int) (h : z ≤ 0) : roundInt z ≤ 0 := by
  unfold roundInt
  by_cases hz : z < 0
  · rw [if_pos hz]
    omega
  · have : z = 0 := by omega
    subst this
    decide

/-- Rounding does not take a number below a bound between -2^53 and 2^53
that it is not below. -/
theorem le_roundInt (b z : Int) (hb1 : -9007199254740992 ≤ b) (hb : b ≤ 9007199254740992)
    (h : b ≤ z) : b ≤ roundInt z := by
  by_cases hz : z ≤ 9007199254740992
  · rw [roundInt_of_le z (by omega) hz]
    exact h
  · unfold roundInt
    rw [if_neg (by omega)]
    have := le_roundNat z.natAbs (by omega)
    omega

/-- From -2^53 up to, but not including, 2^53 the increment is exact. -/
theorem increment_of_lt (x : Int) (h1 : -9007199254740992 ≤ x) (h2 : x < 9007199254740992) :
    increment x = x + 1 :=
  roundInt_of_le (x + 1) (by omega) (by omega)

/-- At 2^53 the increment stalls. -/
theorem increment_two_pow_53 : increment 9007199254740992 = 9007199254740992 := by
  decide

/-- Within the range of exact increments, `k` affirmations add `k`. -/
theorem advance_of_le (x : Int) (k : Nat) (h1 : -9007199254740992 ≤ x)
    (h2 : x + (k : Int) ≤ 9007199254740992) : advance x k = x + (k : Int) := by
  induction k generalizing x with
  | zero => simp [advance]
  | succ k ih =>
    have hk : ((k + 1 : Nat) : Int) = (k : Int) + 1 := by push_cast; rfl
    rw [hk] at h2 ⊢
    show advance (increment x) k = x + ((k : Int) + 1)
    rw [increment_of_lt x h1 (by omega), ih (x + 1) (by omega) (by omega)]
    ring

/-! ## Basic facts about the number loop -/

theorem countsFrom_append (a b : List Number) (n : Int) :
    CountsFrom n (a ++ b) ↔ CountsFrom n a ∧ CountsFrom (n + a.length) b := by
  induction a generalizing n with
  | nil => simp [CountsFrom]
  | cons x xs ih =>
    show (x = Number.finite n ∧ CountsFrom (n + 1) (xs ++ b)) ↔
      (x = Number.finite n ∧ CountsFrom (n + 1) xs) ∧
        CountsFrom (n + ((xs.length + 1 : Nat) : Int)) b
    rw [ih (n + 1), and_assoc]
    have e : n + 1 + (xs.length : Int) = n + ((xs.length + 1 : Nat) : Int) := by
      push_cast
      ring
    rw [e]

theorem countsFrom_range (n : Int) (k : Nat) :
    CountsFrom n ((List.range k).map (fun (i : Nat) => Number.finite (n + (i : Int)))) := by
  induction k with
  | zero => simp [CountsFrom]
  | succ k ih =>
    rw [List.range_succ, List.map_append, countsFrom_append]
    refine ⟨ih, ?_⟩
    simp [CountsFrom]

/-- Within the range of exact increments, numbers that count up from the
expected number are all correct when their turn comes. -/
theorem allCorrect_of_countsFrom (l : List Number) (n : Int)
    (h1 : -9007199254740992 ≤ n) (h2 : n + (l.length : Int) ≤ 9007199254740992)
    (h : CountsFrom n l) : AllCorrect n l := by
  induction l generalizing n with
  | nil => trivial
  | cons x xs ih =>
    have hl : (((x :: xs).length : Nat) : Int) = (xs.length : Int) + 1 := by
      simp
    rw [hl] at h2
    obtain ⟨hx, hxs⟩ := h
    refine ⟨hx, ?_⟩
    rw [increment_of_lt n h1 (by omega)]
    exact ih (n + 1) (by omega) (by omega) hxs

/-- The loop over numbers that are all correct when their turn comes: every
number is affirmed and nothing else is done. -/
theorem foldl_handleNumber_allCorrect (author : UserId) (l : List Number) (s : State)
    (acc : List Action) (h : AllCorrect s.expectedNumber l) :
    l.foldl (handleNumber author) (s, acc) =
      ({ s with expectedNumber := advance s.expectedNumber l.length },
        acc ++ List.replicate l.length (Action.send Feedback.correct)) := by
  induction l generalizing s acc with
  | nil => simp [advance]
  | cons x xs ih =>
    obtain ⟨hx, hxs⟩ := h
    simp only [List.foldl_cons, handleNumber, hx, if_true]
    rw [ih _ _ hxs]
    simp [advance, List.replicate_succ]

/-- In the configured channel a message of a user reaches the number
loop, or is deleted when it holds no number. -/
theorem messageCreate_active (s : State) (m : Message) (c : ChannelId)
    (hs : s.allowedChannelId = some c) (hb : m.authorBot = false) (hc : m.channelId = c) :
    messageCreate s m =
      if (numbers m.content).length = 0 then (s, [Action.deleteMessage])
      else (numbers m.content).foldl (handleNumber m.authorId) (s, []) := by
  simp [messageCreate, hs, hb, hc]

theorem run_nil (s : State) : run s [] = (s, []) := rfl

theorem run_cons (s : State) (e : Event) (es : List Event) :
    run s (e :: es) = ((run (step s e).1 es).1, (step s e).2 ++ (run (step s e).1 es).2) := rfl

theorem runMessages_nil (s : State) : runMessages s [] = (s, []) := rfl

theorem runMessages_cons (s : State) (m : Message) (ms : List Message) :
    runMessages s (m :: ms) =
      ((runMessages (messageCreate s m).1 ms).1,
        (messageCreate s m).2 ++ (runMessages (messageCreate s m).1 ms).2) := rfl

/-- Messages whose numbers, read across the messages, count up from the
expected number within the range of exact increments: the whole run only
affirms. -/
theorem runMessages_countsFrom (c : ChannelId) (ms : List Message) (s : State)
    (hs : s.allowedChannelId = some c)
    (h1 : -9007199254740992 ≤ s.expectedNumber)
    (h2 : s.expectedNumber + ((ms.flatMap (fun m => numbers m.content)).length : Int) ≤
      9007199254740992)
    (hms : ∀ m ∈ ms, m.authorBot = false ∧ m.channelId = c ∧ numbers m.content ≠ [])
    (hseq : CountsFrom s.expectedNumber (ms.flatMap (fun m => numbers m.content))) :
    runMessages s ms =
      ({ s with expectedNumber :=
          s.expectedNumber + ((ms.flatMap (fun m => numbers m.content)).length : Int) },
        List.replicate (ms.flatMap (fun m => numbers m.content)).length
          (Action.send Feedback.correct)) := by
  induction ms generalizing s with
  | nil => simp [runMessages_nil]
  | cons m ms ih =>
    obtain ⟨hb, hc, hne⟩ := hms m (List.mem_cons_self _ _)
    rw [List.flatMap_cons, countsFrom_append] at hseq
    rw [List.flatMap_cons, List.length_append, Nat.cast_add] at h2
    have hlen : ¬ (numbers m.content).length = 0 := by
      simpa [List.length_eq_zero] using hne
    have hm : messageCreate s m =
        ({ s with expectedNumber := s.expectedNumber + ((numbers m.content).length : Int) },
          List.replicate (numbers m.content).length (Action.send Feedback.correct)) := by
      rw [messageCreate_active s m c hs hb hc, if_neg hlen,
        foldl_handleNumber_allCorrect _ _ _ _
          (allCorrect_of_countsFrom _ _ h1 (by omega) hseq.1),
        advance_of_le _ _ h1 (by omega)]
      simp
    rw [runMessages_cons, hm]
    rw [ih { s with expectedNumber := s.expectedNumber + ((numbers m.content).length : Int) }
      hs (by show -9007199254740992 ≤ s.expectedNumber + _; omega)
      (by show s.expectedNumber + _ + _ ≤ _; omega)
      (fun x hx => hms x (List.mem_cons_of_mem _ hx)) hseq.2]
    simp only [List.flatMap_cons, List.length_append, Nat.cast_add, List.replicate_add,
      Prod.mk.injEq, and_true]
    congr 1
    ring

/-- C1, counterexample. In channel 7 with 2^53 - 1 = 9007199254740991
expected (the state after `setnumberchannel` and `resetsequence` with that
start), the two messages `9007199254740991` and `9007199254740992` hold the
numbers n and n + 1 and are both affirmed, but `expectedNumber` ends at 2^53,
not at n + 2: the increment of a double stalls at 2^53. Below -2^53 the
increment is not exact either: from -2^53 - 2 the guess `-9007199254740994`
ends at -2^53. -/
theorem correct_guesses_stall_at_two_pow_53 :
    guessesAcrossTwoPow53.flatMap (fun m => numbers m.content) =
      (List.range 2).map (fun (i : Nat) => Number.finite (9007199254740991 + (i : Int))) ∧
    (runMessages (exampleState 9007199254740991) guessesAcrossTwoPow53).2 =
      List.replicate 2 (Action.send Feedback.correct) ∧
    (runMessages (exampleState 9007199254740991) guessesAcrossTwoPow53).1.expectedNumber =
      9007199254740992 ∧
    (runMessages (exampleState 9007199254740991) guessesAcrossTwoPow53).1.expectedNumber ≠
      9007199254740991 + ((2 : Nat) : Int) ∧
    numbers "-9007199254740994" = [Number.finite (-9007199254740994)] ∧
    (runMessages (exampleState (-9007199254740994))
      [⟨false, 1, 7, "-9007199254740994"⟩]).1.expectedNumber = -9007199254740992 := by
  decide

/-- C1, amended. Starting from `expectedNumber = n` in the configured channel,
with `-2^53 ≤ n` and `n + k ≤ 2^53`, messages of users that each hold a number
and whose numbers, read in order across the messages, are `n, n+1, ..., n+k-1`
end with `expectedNumber = n + k`; the calls made are exactly `k` affirmations
`Correct!` (so no message is deleted), and `warnings` and `allowedChannelId`
are unchanged. -/
theorem correct_guesses_advance (s : State) (c : ChannelId) (ms : List Message)
    (n : Int) (k : Nat)
    (hs : s.allowedChannelId = some c) (hn : s.expectedNumber = n)
    (hlow : -9007199254740992 ≤ n) (hhigh : n + (k : Int) ≤ 9007199254740992)
    (hms : ∀ m ∈ ms, m.authorBot = false ∧ m.channelId = c ∧ numbers m.content ≠ [])
    (hseq : ms.flatMap (fun m => numbers m.content) =
      (List.range k).map (fun (i : Nat) => Number.finite (n + (i : Int)))) :
    (runMessages s ms).1.expectedNumber = n + (k : Int) ∧
    (runMessages s ms).2 = List.replicate k (Action.send Feedback.correct) ∧
    (runMessages s ms).1.warnings = s.warnings ∧
    (runMessages s ms).1.allowedChannelId = s.allowedChannelId := by
  have hc : CountsFrom s.expectedNumber (ms.flatMap (fun m => numbers m.content)) := by
    rw [hseq, hn]
    exact countsFrom_range n k
  have hl : (ms.flatMap (fun m => numbers m.content)).length = k := by
    rw [hseq]
    simp
  rw [runMessages_countsFrom c ms s hs (by rw [hn]; exact hlow)
    (by rw [hn, hl]; exact hhigh) hms hc, hl, hn]
  simp

/-- The message `5 6` at `expectedNumber = 5` ends at 7 with two affirmations,
the guesses 1, 2, 3, one per message, from `expectedNumber = 1` end at 4
with three, and the guess 2^53 - 1 ends at 2^53. -/
theorem correct_guesses_advance_witness :
    ((runMessages (exampleState 5) [⟨false, 1, 7, "5 6"⟩]).1.expectedNumber = 5 + ((2 : Nat) : Int) ∧
      (runMessages (exampleState 5) [⟨false, 1, 7, "5 6"⟩]).2 =
        List.replicate 2 (Action.send Feedback.correct) ∧
      (runMessages (exampleState 5) [⟨false, 1, 7, "5 6"⟩]).1.warnings =
        (exampleState 5).warnings ∧
      (runMessages (exampleState 5) [⟨false, 1, 7, "5 6"⟩]).1.allowedChannelId =
        (exampleState 5).allowedChannelId) ∧
    (runMessages (exampleState 1) threeCorrectGuesses).1.expectedNumber = 1 + ((3 : Nat) : Int) ∧
    (runMessages (exampleState 1) threeCorrectGuesses).2 =
      List.replicate 3 (Action.send Feedback.correct) ∧
    (runMessages (exampleState 9007199254740991)
      [⟨false, 1, 7, "9007199254740991"⟩]).1.expectedNumber =
        9007199254740991 + ((1 : Nat) : Int) :=
  ⟨correct_guesses_advance (exampleState 5) 7 [⟨false, 1, 7, "5 6"⟩] 5 2 rfl rfl
      (by decide) (by decide) (by decide) (by decide),
    (correct_guesses_advance (exampleState 1) 7 threeCorrectGuesses 1 3 rfl rfl
      (by decide) (by decide) (by decide) (by decide)).1,
    (correct_guesses_advance (exampleState 1) 7 threeCorrectGuesses 1 3 rfl rfl
      (by decide) (by decide) (by decide) (by decide)).2.1,
    (correct_guesses_advance (exampleState 9007199254740991) 7
      [⟨false, 1, 7, "9007199254740991"⟩] 9007199254740991 1 rfl rfl
      (by decide) (by decide) (by decide) (by decide)).1⟩

/-- The state in which 2^53 is expected in channel 7 is reached from the
initial state by two commands and one correct guess. -/
theorem exampleState_two_pow_53_reachable :
    (run State.init eventsToTwoPow53).1.expectedNumber = 9007199254740992 ∧
    (run State.init eventsToTwoPow53).1.allowedChannelId = some 7 ∧
    ∀ u, (run State.init eventsToTwoPow53).1.warnings u = none := by
  refine ⟨by decide, by decide, fun u => ?_⟩
  rfl

/-- C7. A message written by a bot, or handled while no channel is configured,
or posted in a channel other than the configured one, triggers no call at all
and leaves the state as it is. -/
theorem ignored_message_no_effect (s : State) (m : Message)
    (h : m.authorBot = true ∨ s.allowedChannelId = none ∨
      s.allowedChannelId ≠ some m.channelId) :
    messageCreate s m = (s, []) := by
  unfold messageCreate
  rcases h with h | h | h
  · simp [h]
  · simp [h]
  · simp [h]

theorem ignored_message_no_effect_witness :
    messageCreate State.init ⟨false, 1, 7, "1"⟩ = (State.init, []) ∧
    messageCreate (exampleState 1) ⟨true, 1, 7, "1"⟩ = (exampleState 1, []) ∧
    messageCreate (exampleState 1) ⟨false, 1, 8, "2"⟩ = (exampleState 1, []) :=
  ⟨ignored_message_no_effect State.init ⟨false, 1, 7, "1"⟩ (Or.inr (Or.inl rfl)),
    ignored_message_no_effect (exampleState 1) ⟨true, 1, 7, "1"⟩ (Or.inl rfl),
    ignored_message_no_effect (exampleState 1) ⟨false, 1, 8, "2"⟩
      (Or.inr (Or.inr (by decide)))⟩

/-- C10. In the configured channel, a message of a user none of whose pieces
parses as an integer is deleted, once, and that is the only call; the state
is unchanged. -/
theorem no_number_message_deleted (s : State) (m : Message) (c : ChannelId)
    (hs : s.allowedChannelId = some c) (hb : m.authorBot = false) (hc : m.channelId = c)
    (hnone : ∀ t ∈ tokens m.content, parseInt t = none) :
    messageCreate s m = (s, [Action.deleteMessage]) := by
  have h0 : numbers m.content = [] := by
    unfold numbers
    rw [List.filterMap_eq_nil_iff]
    intro o ho
    obtain ⟨t, ht, rfl⟩ := List.mem_map.1 ho
    exact hnone t ht
  rw [messageCreate_active s m c hs hb hc, h0]
  simp

theorem no_number_message_deleted_witness :
    messageCreate (exampleState 4) ⟨false, 1, 7, "hello world"⟩ =
      (exampleState 4, [Action.deleteMessage]) ∧
    messageCreate (exampleState 4) ⟨false, 1, 7, ""⟩ =
      (exampleState 4, [Action.deleteMessage]) ∧
    messageCreate (exampleState 4) ⟨false, 1, 7, "  \t \n "⟩ =
      (exampleState 4, [Action.deleteMessage]) :=
  ⟨no_number_message_deleted (exampleState 4) ⟨false, 1, 7, "hello world"⟩ 7 rfl rfl rfl
      (by decide),
    no_number_message_deleted (exampleState 4) ⟨false, 1, 7, ""⟩ 7 rfl rfl rfl (by decide),
    no_number_message_deleted (exampleState 4) ⟨false, 1, 7, "  \t \n "⟩ 7 rfl rfl rfl
      (by decide)⟩

/-! ## Wrong guesses -/

/-- One wrong number in the loop: the message is deleted, the count of the
author becomes `countAfterWrong` of the entry, and the feedback is the one of
the new count. -/
theorem handleNumber_wrong (author : UserId) (s : State) (acc : List Action) (x : Number)
    (h : x ≠ Number.finite s.expectedNumber) :
    handleNumber author (s, acc) x =
      ({ s with warnings :=
          Function.update s.warnings author (some (countAfterWrong (s.warnings author))) },
        acc ++ [Action.deleteMessage,
          Action.send (warningFeedback s.expectedNumber author
            (countAfterWrong (s.warnings author)))]) := by
  unfold handleNumber warningFeedback
  simp only [if_neg h]
  cases hw : s.warnings author with
  | none => simp [countAfterWrong, apply_ite Action.send]
  | some c =>
    by_cases hc : c = 0
    · simp [countAfterWrong, truthy, hc, apply_ite Action.send]
    · simp [countAfterWrong, truthy, hc, apply_ite Action.send]

/-- A message of a user in the configured channel whose only number is
wrong. -/
theorem messageCreate_wrong (s : State) (m : Message) (c : ChannelId) (x : Number)
    (hs : s.allowedChannelId = some c) (hb : m.authorBot = false) (hc : m.channelId = c)
    (hnum : numbers m.content = [x]) (hx : x ≠ Number.finite s.expectedNumber) :
    messageCreate s m =
      ({ s with warnings :=
            Function.update s.warnings m.authorId (some (countAfterWrong (s.warnings m.authorId))) },
        [Action.deleteMessage,
          Action.send (warningFeedback s.expectedNumber m.authorId
            (countAfterWrong (s.warnings m.authorId)))]) := by
  rw [messageCreate_active s m c hs hb hc, hnum]
  simp only [List.length_singleton, one_ne_zero, if_false, List.foldl_cons, List.foldl_nil]
  rw [handleNumber_wrong _ _ _ _ hx]
  simp

/-- From -2^53 up to, but not including, 2^53 a wrong number adds one to the
count, an absent entry counting as 0. -/
theorem countAfterWrong_of_lt (w : Option Int) (h1 : -9007199254740992 ≤ w.getD 0)
    (h2 : w.getD 0 < 9007199254740992) : countAfterWrong w = w.getD 0 + 1 := by
  cases w with
  | none => rfl
  | some c =>
    simp only [Option.getD_some] at h1 h2
    by_cases hc : c = 0
    · simp [countAfterWrong, hc]
    · simp [countAfterWrong, hc, increment_of_lt c h1 h2]

/-- From a count that is not negative a wrong number gives a count of at
least 1. -/
theorem one_le_countAfterWrong (w : Option Int) (h : 0 ≤ w.getD 0) :
    1 ≤ countAfterWrong w := by
  cases w with
  | none => decide
  | some c =>
    simp only [Option.getD_some] at h
    by_cases hc : c = 0
    · simp [countAfterWrong, hc]
    · simp only [countAfterWrong, hc, if_false]
      exact le_roundInt 1 (c + 1) (by decide) (by decide) (by omega)

/-- The feedback for a count of at least 1: the warning with `3 - count` left
below 3, the maximum-reached message from 3 on. -/
theorem warningFeedback_of_one_le (expected : Int) (author : UserId) (count : Int)
    (h : 1 ≤ count) :
    warningFeedback expected author count =
      if count < 3 then Feedback.wrongNumber expected (3 - count)
      else Feedback.maxWarningsReached author := by
  unfold warningFeedback maxWarnings
  by_cases hc : count < 3
  · rw [roundInt_of_le (3 - count) (by omega) (by omega)]
    have : 3 - count > 0 := by omega
    simp [hc, this]
  · have h0 : ¬ roundInt (3 - count) > 0 := by
      have := roundInt_nonpos (3 - count) (by omega)
      omega
    simp [hc, h0]

/-- C2, counterexample. With 2^53 expected in channel 7 (a state reached from
the initial state by two commands and a correct guess), the only integer token
of the message `9007199254740993` writes 2^53 + 1, which differs from
`expectedNumber`; yet `parseInt` reads the double 2^53, the message is
affirmed, it is not deleted and its author gets no warning entry. And where
the count of the author is 2^53, a wrong guess leaves it at 2^53. -/
theorem wrong_guess_read_as_correct :
    (run State.init eventsToTwoPow53).1.expectedNumber = 9007199254740992 ∧
    tokens "9007199254740993" = ["9007199254740993".toList] ∧
    specIsIntegerToken "9007199254740993".toList = true ∧
    specIntegerValue "9007199254740993".toList ≠
      (run State.init eventsToTwoPow53).1.expectedNumber ∧
    (messageCreate (run State.init eventsToTwoPow53).1
      ⟨false, 1, 7, "9007199254740993"⟩).2 = [Action.send Feedback.correct] ∧
    (messageCreate (run State.init eventsToTwoPow53).1
      ⟨false, 1, 7, "9007199254740993"⟩).1.warnings 1 = none ∧
    (messageCreate saturatedState ⟨false, 1, 7, "9"⟩).1.warnings 1 =
      saturatedState.warnings 1 := by
  decide

/-- C2, amended. In the configured channel, a message of a user whose only
number, as `parseInt` reads it, differs from `expectedNumber`, while the count
of the author (an absent entry counting as 0) is at least -2^53 and below
2^53: `expectedNumber` and `allowedChannelId` stay as they are, the count of
the author becomes one more than before, the entry of every other user stays
as it is, and the message is deleted, once, before the one feedback message of
the new count is sent. -/
theorem wrong_guess_warns_author (s : State) (m : Message) (c : ChannelId) (x : Number)
    (hs : s.allowedChannelId = some c) (hb : m.authorBot = false) (hc : m.channelId = c)
    (hnum : numbers m.content = [x]) (hx : x ≠ Number.finite s.expectedNumber)
    (hlow : -9007199254740992 ≤ (s.warnings m.authorId).getD 0)
    (hhigh : (s.warnings m.authorId).getD 0 < 9007199254740992) :
    (messageCreate s m).1.expectedNumber = s.expectedNumber ∧
    (messageCreate s m).1.warnings m.authorId =
      some ((s.warnings m.authorId).getD 0 + 1) ∧
    (∀ u, u ≠ m.authorId → (messageCreate s m).1.warnings u = s.warnings u) ∧
    (messageCreate s m).1.allowedChannelId = s.allowedChannelId ∧
    (messageCreate s m).2 =
      [Action.deleteMessage,
        Action.send (warningFeedback s.expectedNumber m.authorId
          ((s.warnings m.authorId).getD 0 + 1))] := by
  rw [messageCreate_wrong s m c x hs hb hc hnum hx, countAfterWrong_of_lt _ hlow hhigh]
  refine ⟨rfl, by simp, ?_, rfl, rfl⟩
  intro u hu
  simp [Function.update, hu]

/-- A first wrong guess, and a third one in a message with a piece that
does not parse. -/
theorem wrong_guess_warns_author_witness :
    ((messageCreate (exampleState 5) ⟨false, 1, 7, "9"⟩).1.expectedNumber =
        (exampleState 5).expectedNumber ∧
      (messageCreate (exampleState 5) ⟨false, 1, 7, "9"⟩).1.warnings 1 =
        some (((exampleState 5).warnings 1).getD 0 + 1) ∧
      (∀ u, u ≠ 1 →
        (messageCreate (exampleState 5) ⟨false, 1, 7, "9"⟩).1.warnings u =
          (exampleState 5).warnings u) ∧
      (messageCreate (exampleState 5) ⟨false, 1, 7, "9"⟩).1.allowedChannelId =
        (exampleState 5).allowedChannelId ∧
      (messageCreate (exampleState 5) ⟨false, 1, 7, "9"⟩).2 =
        [Action.deleteMessage, Action.send (Feedback.wrongNumber 5 2)]) ∧
    (messageCreate warnedState ⟨false, 1, 7, "4 apples"⟩).1.warnings 1 = some 3 ∧
    (messageCreate warnedState ⟨false, 1, 7, "4 apples"⟩).2 =
      [Action.deleteMessage, Action.send (Feedback.maxWarningsReached 1)] :=
  ⟨wrong_guess_warns_author (exampleState 5) ⟨false, 1, 7, "9"⟩ 7 (Number.finite 9)
      rfl rfl rfl (by decide) (by decide) (by decide) (by decide),
    (wrong_guess_warns_author warnedState ⟨false, 1, 7, "4 apples"⟩ 7 (Number.finite 4)
      rfl rfl rfl (by decide) (by decide) (by decide) (by decide)).2.1,
    (wrong_guess_warns_author warnedState ⟨false, 1, 7, "4 apples"⟩ 7 (Number.finite 4)
      rfl rfl rfl (by decide) (by decide) (by decide) (by decide)).2.2.2.2⟩

/-- After `j` wrong numbers from no count, one more: the count follows the
number of wrong numbers up to 2^53, where it stays. -/
theorem countAfterWrong_min (w : Option Int) (j : Nat)
    (h : w.getD 0 = ((min j 9007199254740992 : Nat) : Int)) :
    countAfterWrong w = ((min (j + 1) 9007199254740992 : Nat) : Int) := by
  have key : ∀ c : Int, c = ((min j 9007199254740992 : Nat) : Int) →
      (if c = 0 then 1 else increment c) = ((min (j + 1) 9007199254740992 : Nat) : Int) := by
    intro c hc
    by_cases hj : j < 9007199254740992
    · have e1 : min j 9007199254740992 = j := by omega
      have e2 : min (j + 1) 9007199254740992 = j + 1 := by omega
      rw [e1] at hc
      rw [e2]
      by_cases h0 : c = 0
      · rw [if_pos h0]
        omega
      · rw [if_neg h0, increment_of_lt c (by omega) (by omega)]
        omega
    · have e1 : min j 9007199254740992 = 9007199254740992 := by omega
      have e2 : min (j + 1) 9007199254740992 = 9007199254740992 := by omega
      rw [e1] at hc
      rw [e2, hc]
      exact increment_two_pow_53
  cases w with
  | none =>
    have h0 := key 0 (by simpa using h)
    simpa [countAfterWrong] using h0
  | some c =>
    simp only [Option.getD_some] at h
    exact key c h

/-- Wrong single-number guesses of one user in a row: the expected number and
the channel stay, and the count of the user follows the number of guesses up
to 2^53. -/
theorem runMessages_wrong (c : ChannelId) (u : UserId) (ms : List Message) (s : State)
    (j : Nat) (hs : s.allowedChannelId = some c)
    (hj : (s.warnings u).getD 0 = ((min j 9007199254740992 : Nat) : Int))
    (hms : ∀ m ∈ ms, m.authorBot = false ∧ m.authorId = u ∧ m.channelId = c ∧
      ∃ x, numbers m.content = [x] ∧ x ≠ Number.finite s.expectedNumber) :
    (runMessages s ms).1.expectedNumber = s.expectedNumber ∧
    (runMessages s ms).1.allowedChannelId = s.allowedChannelId ∧
    ((runMessages s ms).1.warnings u).getD 0 =
      ((min (j + ms.length) 9007199254740992 : Nat) : Int) := by
  induction ms generalizing s j with
  | nil => exact ⟨rfl, rfl, by simpa using hj⟩
  | cons m ms ih =>
    obtain ⟨hb, ha, hc, x, hnum, hx⟩ := hms m (List.mem_cons_self _ _)
    rw [runMessages_cons, messageCreate_wrong s m c x hs hb hc hnum hx]
    obtain ⟨h1, h2, h3⟩ := ih
      { s with warnings :=
          Function.update s.warnings m.authorId (some (countAfterWrong (s.warnings m.authorId))) }
      (j + 1) hs
      (by
        rw [ha]
        simp only [Function.update_same, Option.getD_some]
        exact countAfterWrong_min _ j hj)
      (fun y hy => hms y (List.mem_cons_of_mem _ hy))
    refine ⟨h1, h2, ?_⟩
    rw [h3, List.length_cons]
    congr 2
    omega

/-- C3, counterexample. With 2^53 expected in channel 7 and no warning entry
for user 1, the first guess `9007199254740993` of user 1 writes 2^53 + 1, a
wrong number; `parseInt` reads the double 2^53 and the message is affirmed
instead of being answered by the warning with 2 warnings left. -/
theorem wrong_guess_not_warned :
    (run State.init eventsToTwoPow53).1.warnings 1 = none ∧
    specIntegerValue "9007199254740993".toList ≠
      (run State.init eventsToTwoPow53).1.expectedNumber ∧
    (messageCreate (run State.init eventsToTwoPow53).1
      ⟨false, 1, 7, "9007199254740993"⟩).2 = [Action.send Feedback.correct] ∧
    (messageCreate (run State.init eventsToTwoPow53).1
      ⟨false, 1, 7, "9007199254740993"⟩).2 ≠
        [Action.deleteMessage, Action.send (Feedback.wrongNumber 9007199254740992 2)] := by
  decide

/-- C3, amended. With `maxWarnings = 3`, for a user with no warning entry who
sends, in a row in the configured channel, messages whose only number, as
`parseInt` reads it, differs from `expectedNumber`: the guess number `i + 1`
deletes the message and sends the warning that names the expected number and
reports `3 - (i + 1)` warnings left when `i + 1 < 3` (2 left for the first, 1
left for the second), and the maximum-reached message from the third guess
on. In any state where the count of the author is not negative, such a guess
that brings the count to `count` sends the warning with `3 - count` left if
`count < 3` and the maximum-reached message otherwise. -/
theorem consecutive_wrong_guesses_feedback (s : State) (c : ChannelId) (u : UserId)
    (ms : List Message)
    (hs : s.allowedChannelId = some c) (hw : s.warnings u = none)
    (hms : ∀ m ∈ ms, m.authorBot = false ∧ m.authorId = u ∧ m.channelId = c ∧
      ∃ x, numbers m.content = [x] ∧ x ≠ Number.finite s.expectedNumber) :
    (∀ (i : Nat) (h : i < ms.length),
      (messageCreate (runMessages s (ms.take i)).1 (ms.get ⟨i, h⟩)).2 =
        [Action.deleteMessage,
          Action.send
            (if i + 1 < 3 then Feedback.wrongNumber s.expectedNumber (3 - ((i : Int) + 1))
              else Feedback.maxWarningsReached u)]) ∧
    (∀ (t : State) (m : Message) (x : Number),
      t.allowedChannelId = some c → m.authorBot = false → m.channelId = c →
      numbers m.content = [x] → x ≠ Number.finite t.expectedNumber →
      0 ≤ (t.warnings m.authorId).getD 0 →
      ∃ count : Int, (messageCreate t m).1.warnings m.authorId = some count ∧
        (messageCreate t m).2 =
          [Action.deleteMessage,
            Action.send
              (if count < 3 then Feedback.wrongNumber t.expectedNumber (3 - count)
                else Feedback.maxWarningsReached m.authorId)]) := by
  constructor
  · intro i h
    have hpre : ∀ m ∈ ms.take i, m.authorBot = false ∧ m.authorId = u ∧ m.channelId = c ∧
        ∃ x, numbers m.content = [x] ∧ x ≠ Number.finite s.expectedNumber :=
      fun m hm => hms m (List.mem_of_mem_take hm)
    obtain ⟨h1, h2, h3⟩ := runMessages_wrong c u (ms.take i) s 0 hs (by simp [hw]) hpre
    obtain ⟨hb, ha, hc, x, hnum, hx⟩ := hms (ms.get ⟨i, h⟩) (List.get_mem ms i h)
    rw [messageCreate_wrong _ _ c x (h2.trans hs) hb hc hnum (by rw [h1]; exact hx)]
    have hl : (ms.take i).length = i := by
      rw [List.length_take]
      omega
    rw [hl, zero_add] at h3
    have hcount := countAfterWrong_min _ i h3
    rw [ha, hcount, h1]
    have hone : (1 : Int) ≤ ((min (i + 1) 9007199254740992 : Nat) : Int) := by omega
    rw [warningFeedback_of_one_le _ _ _ hone]
    by_cases hi : i + 1 < 3
    · have e : min (i + 1) 9007199254740992 = i + 1 := by omega
      rw [e]
      have hlt : (((i + 1 : Nat) : Int)) < 3 := by omega
      rw [if_pos hlt, if_pos hi]
      push_cast
      rfl
    · have hge : ¬ ((min (i + 1) 9007199254740992 : Nat) : Int) < 3 := by omega
      rw [if_neg hge, if_neg hi]
  · intro t m x ht hb hc hnum hx h0
    refine ⟨countAfterWrong (t.warnings m.authorId), ?_, ?_⟩
    · rw [messageCreate_wrong t m c x ht hb hc hnum hx]
      simp
    · rw [messageCreate_wrong t m c x ht hb hc hnum hx,
        warningFeedback_of_one_le _ _ _ (one_le_countAfterWrong _ h0)]

theorem consecutive_wrong_guesses_feedback_witness :
    (messageCreate (runMessages (exampleState 5) (fourWrongGuesses.take 0)).1
        ⟨false, 1, 7, "9"⟩).2 =
      [Action.deleteMessage, Action.send (Feedback.wrongNumber 5 2)] ∧
    (messageCreate (runMessages (exampleState 5) (fourWrongGuesses.take 1)).1
        ⟨false, 1, 7, "3"⟩).2 =
      [Action.deleteMessage, Action.send (Feedback.wrongNumber 5 1)] ∧
    (messageCreate (runMessages (exampleState 5) (fourWrongGuesses.take 2)).1
        ⟨false, 1, 7, "6"⟩).2 =
      [Action.deleteMessage, Action.send (Feedback.maxWarningsReached 1)] ∧
    (messageCreate (runMessages (exampleState 5) (fourWrongGuesses.take 3)).1
        ⟨false, 1, 7, "1"⟩).2 =
      [Action.deleteMessage, Action.send (Feedback.maxWarningsReached 1)] :=
  have h := (consecutive_wrong_guesses_feedback (exampleState 5) 7 1 fourWrongGuesses rfl rfl
    (by
      intro m hm
      simp only [fourWrongGuesses, List.mem_cons, List.mem_singleton, List.not_mem_nil,
        or_false] at hm
      rcases hm with rfl | rfl | rfl | rfl
      · exact ⟨rfl, rfl, rfl, Number.finite 9, by decide, by decide⟩
      · exact ⟨rfl, rfl, rfl, Number.finite 3, by decide, by decide⟩
      · exact ⟨rfl, rfl, rfl, Number.finite 6, by decide, by decide⟩
      · exact ⟨rfl, rfl, rfl, Number.finite 1, by decide, by decide⟩)).1
  ⟨h 0 (by decide), h 1 (by decide), h 2 (by decide), h 3 (by decide)⟩

/-! ## Slash commands -/

theorem interactionCreate_setnumberchannel (s : State) (i : Interaction)
    (hi : i.isChatInputCommand = true) (hn : i.commandName = "setnumberchannel") :
    interactionCreate s i =
      if hasManageServerPermission i.member then
        ({ s with allowedChannelId := some i.channelId, expectedNumber := 1 },
          [Action.deferReply, Action.editReply Reply.channelSet])
      else (s, [Action.deferReply, Action.editReply Reply.noPermissionSetChannel]) := by
  have h2 : ¬ i.commandName = "resetsequence" := by rw [hn]; decide
  have h3 : ¬ i.commandName = "unbanall" := by rw [hn]; decide
  have h4 : ¬ i.commandName = "resetwarn" := by rw [hn]; decide
  unfold interactionCreate
  rw [hi]
  simp only [Bool.not_true, Bool.false_eq_true, if_false]
  unfold setnumberchannel resetsequence unbanall resetwarn
  rw [if_pos hn, if_neg h2, if_neg h3, if_neg h4]
  split <;> simp

theorem interactionCreate_resetsequence (s : State) (i : Interaction)
    (hi : i.isChatInputCommand = true) (hn : i.commandName = "resetsequence") :
    interactionCreate s i =
      if hasManageServerPermission i.member then
        ({ s with expectedNumber :=
            match i.start with
            | some n => if n = 0 then 1 else n
            | none => 1 },
          [Action.deferReply, Action.editReply (Reply.sequenceReset
            (match i.start with
            | some n => if n = 0 then 1 else n
            | none => 1))])
      else (s, [Action.deferReply, Action.editReply Reply.noPermissionResetSequence]) := by
  have h1 : ¬ i.commandName = "setnumberchannel" := by rw [hn]; decide
  have h3 : ¬ i.commandName = "unbanall" := by rw [hn]; decide
  have h4 : ¬ i.commandName = "resetwarn" := by rw [hn]; decide
  unfold interactionCreate
  rw [hi]
  simp only [Bool.not_true, Bool.false_eq_true, if_false]
  unfold setnumberchannel resetsequence unbanall resetwarn
  rw [if_neg h1, if_pos hn, if_neg h3, if_neg h4]
  split <;> simp

theorem interactionCreate_unbanall (s : State) (i : Interaction)
    (hi : i.isChatInputCommand = true) (hn : i.commandName = "unbanall") :
    interactionCreate s i =
      if hasManageServerPermission i.member then
        match i.guildBans with
        | some bans =>
          if bans.length = 0 then
            (s, [Action.deferReply, Action.fetchBans, Action.editReply Reply.noBannedUsers])
          else
            (s, [Action.deferReply, Action.fetchBans] ++ bans.map Action.unban ++
              [Action.editReply Reply.allUnbanned])
        | none =>
          (s, [Action.deferReply, Action.fetchBans, Action.editReply Reply.fetchBansError,
            Action.logError])
      else (s, [Action.deferReply, Action.editReply Reply.noPermissionUnban]) := by
  have h1 : ¬ i.commandName = "setnumberchannel" := by rw [hn]; decide
  have h2 : ¬ i.commandName = "resetsequence" := by rw [hn]; decide
  have h4 : ¬ i.commandName = "resetwarn" := by rw [hn]; decide
  unfold interactionCreate
  rw [hi]
  simp only [Bool.not_true, Bool.false_eq_true, if_false]
  unfold setnumberchannel resetsequence unbanall resetwarn
  rw [if_neg h1, if_neg h2, if_pos hn, if_neg h4]
  split
  · cases i.guildBans with
    | none => simp
    | some bans => by_cases hb : bans.length = 0 <;> simp [hb]
  · simp

theorem interactionCreate_resetwarn (s : State) (i : Interaction)
    (hi : i.isChatInputCommand = true) (hn : i.commandName = "resetwarn") :
    interactionCreate s i =
      if hasManageServerPermission i.member then
        match i.user with
        | some user =>
          if truthy (s.warnings user.id) then
            ({ s with warnings := Function.update s.warnings user.id none },
              [Action.deferReply, Action.editReply (Reply.warningsReset user.tag)])
          else (s, [Action.deferReply, Action.editReply (Reply.noWarnings user.tag)])
        | none => (s, [Action.deferReply, Action.uncaughtTypeError])
      else (s, [Action.deferReply, Action.editReply Reply.noPermissionResetWarn]) := by
  have h1 : ¬ i.commandName = "setnumberchannel" := by rw [hn]; decide
  have h2 : ¬ i.commandName = "resetsequence" := by rw [hn]; decide
  have h3 : ¬ i.commandName = "unbanall" := by rw [hn]; decide
  unfold interactionCreate
  rw [hi]
  simp only [Bool.not_true, Bool.false_eq_true, if_false]
  unfold setnumberchannel resetsequence unbanall resetwarn
  rw [if_neg h1, if_neg h2, if_neg h3, if_pos hn]
  split
  · cases i.user with
    | none => simp
    | some user => by_cases hb : truthy (s.warnings user.id) = true <;> simp [hb]
  · simp

/-- A chat-input command that is none of the four is acknowledged and
nothing else happens. -/
theorem interactionCreate_other (s : State) (i : Interaction)
    (hi : i.isChatInputCommand = true) (h1 : i.commandName ≠ "setnumberchannel")
    (h2 : i.commandName ≠ "resetsequence") (h3 : i.commandName ≠ "unbanall")
    (h4 : i.commandName ≠ "resetwarn") :
    interactionCreate s i = (s, [Action.deferReply]) := by
  unfold interactionCreate
  rw [hi]
  simp only [Bool.not_true, Bool.false_eq_true, if_false]
  unfold setnumberchannel resetsequence unbanall resetwarn
  rw [if_neg h1, if_neg h2, if_neg h3, if_neg h4]

/-- C6. For each of the four commands, an invoker without the manage-server
permission gets, after the deferred acknowledgement, that command's
permission-denied reply as the only other call (so no ban list is fetched and
no unban is requested), and the state is unchanged, whatever the arguments. -/
theorem unprivileged_command_denied (s : State) (i : Interaction)
    (hi : i.isChatInputCommand = true)
    (hp : hasManageServerPermission i.member = false) :
    (i.commandName = "setnumberchannel" →
      interactionCreate s i =
        (s, [Action.deferReply, Action.editReply Reply.noPermissionSetChannel])) ∧
    (i.commandName = "resetsequence" →
      interactionCreate s i =
        (s, [Action.deferReply, Action.editReply Reply.noPermissionResetSequence])) ∧
    (i.commandName = "unbanall" →
      interactionCreate s i =
        (s, [Action.deferReply, Action.editReply Reply.noPermissionUnban])) ∧
    (i.commandName = "resetwarn" →
      interactionCreate s i =
        (s, [Action.deferReply, Action.editReply Reply.noPermissionResetWarn])) := by
  refine ⟨fun hn => ?_, fun hn => ?_, fun hn => ?_, fun hn => ?_⟩
  · rw [interactionCreate_setnumberchannel s i hi hn, hp]; simp
  · rw [interactionCreate_resetsequence s i hi hn, hp]; simp
  · rw [interactionCreate_unbanall s i hi hn, hp]; simp
  · rw [interactionCreate_resetwarn s i hi hn, hp]; simp

theorem unprivileged_command_denied_witness :
    interactionCreate warnedState (exampleCommand "setnumberchannel" false) =
      (warnedState, [Action.deferReply, Action.editReply Reply.noPermissionSetChannel]) ∧
    interactionCreate warnedState (exampleCommand "resetsequence" false) =
      (warnedState, [Action.deferReply, Action.editReply Reply.noPermissionResetSequence]) ∧
    interactionCreate warnedState (exampleCommand "unbanall" false) =
      (warnedState, [Action.deferReply, Action.editReply Reply.noPermissionUnban]) ∧
    interactionCreate warnedState (exampleCommand "resetwarn" false) =
      (warnedState, [Action.deferReply, Action.editReply Reply.noPermissionResetWarn]) :=
  ⟨(unprivileged_command_denied warnedState (exampleCommand "setnumberchannel" false)
      rfl rfl).1 rfl,
    (unprivileged_command_denied warnedState (exampleCommand "resetsequence" false)
      rfl rfl).2.1 rfl,
    (unprivileged_command_denied warnedState (exampleCommand "unbanall" false)
      rfl rfl).2.2.1 rfl,
    (unprivileged_command_denied warnedState (exampleCommand "resetwarn" false)
      rfl rfl).2.2.2 rfl⟩

/-! ## `resetsequence` and the lower bound on `expectedNumber` -/

/-- What `resetsequence` does for an invoker with the permission: a start
other than 0 becomes `expectedNumber`, no start gives 1, the reply names the
new value, and `warnings` and `allowedChannelId` are unchanged. -/
theorem resetsequence_sets_start (s : State) (i : Interaction)
    (hi : i.isChatInputCommand = true) (hn : i.commandName = "resetsequence")
    (hp : hasManageServerPermission i.member = true) :
    (∀ n : Int, i.start = some n → n ≠ 0 →
      interactionCreate s i =
        ({ s with expectedNumber := n },
          [Action.deferReply, Action.editReply (Reply.sequenceReset n)])) ∧
    (i.start = none →
      interactionCreate s i =
        ({ s with expectedNumber := 1 },
          [Action.deferReply, Action.editReply (Reply.sequenceReset 1)])) := by
  rw [interactionCreate_resetsequence s i hi hn, hp]
  constructor
  · intro n h h0
    simp [h, h0]
  · intro h
    simp [h]

/-- C4, the failing input. `resetsequence` with `start = 0` from an invoker
with the permission does not set `expectedNumber` to 0: in every state it
sets it to 1 and the reply names 1. -/
theorem resetsequence_zero_start_gives_one (s : State) :
    interactionCreate s
        { isChatInputCommand := true, commandName := "resetsequence", member := ⟨true⟩,
          channelId := 9, start := some 0, user := none, guildBans := none } =
      ({ s with expectedNumber := 1 },
        [Action.deferReply, Action.editReply (Reply.sequenceReset 1)]) ∧
    (interactionCreate s
        { isChatInputCommand := true, commandName := "resetsequence", member := ⟨true⟩,
          channelId := 9, start := some 0, user := none, guildBans := none }).1.expectedNumber
      ≠ 0 := by
  rw [interactionCreate_resetsequence s _ rfl rfl]
  simp [hasManageServerPermission]

/-- The number loop keeps `expectedNumber` at 1 or above. -/
theorem foldl_handleNumber_one_le (author : UserId) (l : List Number)
    (r : State × List Action) (h : 1 ≤ r.1.expectedNumber) :
    1 ≤ (l.foldl (handleNumber author) r).1.expectedNumber := by
  induction l generalizing r with
  | nil => exact h
  | cons x xs ih =>
    rw [List.foldl_cons]
    apply ih
    unfold handleNumber
    split
    · exact le_roundInt 1 (r.1.expectedNumber + 1) (by decide) (by decide) (by omega)
    · exact h

/-- A chat message keeps `expectedNumber` at 1 or above. -/
theorem messageCreate_one_le (s : State) (m : Message) (h : 1 ≤ s.expectedNumber) :
    1 ≤ (messageCreate s m).1.expectedNumber := by
  unfold messageCreate
  split
  · exact h
  · simp only
    split
    · exact h
    · exact foldl_handleNumber_one_le _ _ (s, []) h

/-- Every command keeps `expectedNumber` or, for `setnumberchannel`, sets it
to 1; `resetsequence` sets it to the start or to 1. -/
theorem interactionCreate_expectedNumber (s : State) (i : Interaction)
    (h : StartAtLeastOne (Event.interaction i)) (hs : 1 ≤ s.expectedNumber) :
    1 ≤ (interactionCreate s i).1.expectedNumber := by
  by_cases hi : i.isChatInputCommand = true
  · by_cases h1 : i.commandName = "setnumberchannel"
    · rw [interactionCreate_setnumberchannel s i hi h1]
      split <;> simp [hs]
    · by_cases h2 : i.commandName = "resetsequence"
      · rw [interactionCreate_resetsequence s i hi h2]
        by_cases hp : hasManageServerPermission i.member = true
        · rw [if_pos hp]
          cases hst : i.start with
          | none => simp
          | some n =>
            have hn := h hi h2 hp n hst
            have h0 : n ≠ 0 := by omega
            simp [h0, hn]
        · rw [if_neg hp]
          exact hs
      · by_cases h3 : i.commandName = "unbanall"
        · rw [interactionCreate_unbanall s i hi h3]
          split
          · split
            · split <;> exact hs
            · exact hs
          · exact hs
        · by_cases h4 : i.commandName = "resetwarn"
          · rw [interactionCreate_resetwarn s i hi h4]
            split
            · split
              · split <;> exact hs
              · exact hs
            · exact hs
          · rw [interactionCreate_other s i hi h1 h2 h3 h4]
            exact hs
  · have hf : i.isChatInputCommand = false := by simpa using hi
    simp [interactionCreate, hf, hs]

/-- C5, counterexample. From the initial state, `resetsequence` with
`start = -5` from an invoker with the permission leaves `expectedNumber = -5`,
which is below 1. -/
theorem expectedNumber_below_one_reachable :
    ¬ (1 ≤ (run State.init
        [Event.interaction
          { isChatInputCommand := true, commandName := "resetsequence", member := ⟨true⟩,
            channelId := 9, start := some (-5), user := none,
            guildBans := none }]).1.expectedNumber) := by
  decide

/-- C5, amended. `expectedNumber ≥ 1` holds in the initial state, is preserved
by every event other than a `resetsequence` of an invoker with the permission
with a start below 1, and so holds after every run of such events from the
initial state; right after a `setnumberchannel` of an invoker with the
permission `expectedNumber` is 1, and right after a `resetsequence` of such an
invoker with no start or a start of at least 1 it is at least 1. -/
theorem expectedNumber_at_least_one :
    1 ≤ State.init.expectedNumber ∧
    (∀ (s : State) (e : Event), StartAtLeastOne e → 1 ≤ s.expectedNumber →
      1 ≤ (step s e).1.expectedNumber) ∧
    (∀ es : List Event, (∀ e ∈ es, StartAtLeastOne e) →
      1 ≤ (run State.init es).1.expectedNumber) ∧
    (∀ (s : State) (i : Interaction), i.isChatInputCommand = true →
      i.commandName = "setnumberchannel" → hasManageServerPermission i.member = true →
      (interactionCreate s i).1.expectedNumber = 1) ∧
    (∀ (s : State) (i : Interaction), i.isChatInputCommand = true →
      i.commandName = "resetsequence" → hasManageServerPermission i.member = true →
      (∀ n : Int, i.start = some n → 1 ≤ n) →
      1 ≤ (interactionCreate s i).1.expectedNumber) := by
  have hstep : ∀ (s : State) (e : Event), StartAtLeastOne e → 1 ≤ s.expectedNumber →
      1 ≤ (step s e).1.expectedNumber := by
    intro s e he hs
    cases e with
    | interaction i => exact interactionCreate_expectedNumber s i he hs
    | message m => exact messageCreate_one_le s m hs
  have hrun : ∀ (es : List Event) (s : State), (∀ e ∈ es, StartAtLeastOne e) →
      1 ≤ s.expectedNumber → 1 ≤ (run s es).1.expectedNumber := by
    intro es
    induction es with
    | nil => intro s _ hs; exact hs
    | cons e es ih =>
      intro s hes hs
      rw [run_cons]
      exact ih _ (fun x hx => hes x (List.mem_cons_of_mem _ hx))
        (hstep s e (hes e (List.mem_cons_self _ _)) hs)
  refine ⟨by decide, hstep, fun es hes => hrun es State.init hes (by decide), ?_, ?_⟩
  · intro s i hi hn hp
    rw [interactionCreate_setnumberchannel s i hi hn, hp]
    simp
  · intro s i hi hn hp hst
    rw [interactionCreate_resetsequence s i hi hn, hp]
    cases h : i.start with
    | none => simp
    | some n =>
      have h1 := hst n h
      have h0 : n ≠ 0 := by omega
      simp [h0, h1]

theorem expectedNumber_at_least_one_witness :
    1 ≤ (run State.init exampleRun).1.expectedNumber :=
  expectedNumber_at_least_one.2.2.1 exampleRun (by
    intro e he
    simp only [exampleRun, List.mem_cons, List.mem_singleton, List.not_mem_nil,
      or_false] at he
    rcases he with rfl | rfl | rfl | rfl | rfl
    · intro _ h
      exact absurd h (by decide)
    · trivial
    · trivial
    · intro _ _ _ n hn
      have : n = 10 := by
        have h1 : (some 10 : Option Int) = some n := hn
        exact (Option.some.inj h1).symm
      omega
    · trivial)

/-! ## `resetwarn` -/

/-- The number loop of a message touches the entry of its author only. -/
theorem foldl_handleNumber_warnings_other (author u : UserId) (h : u ≠ author)
    (l : List Number) (r : State × List Action) :
    (l.foldl (handleNumber author) r).1.warnings u = r.1.warnings u := by
  induction l generalizing r with
  | nil => simp
  | cons x xs ih =>
    rw [List.foldl_cons, ih]
    unfold handleNumber
    split
    · simp
    · simp [Function.update, h]

/-- A message that is not a wrong guess of `u` leaves the entry of `u`. -/
theorem messageCreate_warnings_of_not_wrong (s : State) (m : Message) (u : UserId)
    (h : ¬ IsWrongGuessBy u s m) :
    (messageCreate s m).1.warnings u = s.warnings u := by
  by_cases hb : m.authorBot = false
  · by_cases hc : s.allowedChannelId = some m.channelId
    · rw [messageCreate_active s m m.channelId hc hb rfl]
      split
      · rfl
      · by_cases ha : m.authorId = u
        · have hcf : AllCorrect s.expectedNumber (numbers m.content) := by
            by_contra hn
            exact h ⟨hb, hc, ha, hn⟩
          rw [foldl_handleNumber_allCorrect _ _ _ _ hcf]
        · exact foldl_handleNumber_warnings_other m.authorId u (fun e => ha e.symm) _ _
    · have : messageCreate s m = (s, []) := by
        unfold messageCreate
        cases hz : s.allowedChannelId with
        | none => simp
        | some c =>
          have : c ≠ m.channelId := by
            intro e
            exact hc (by rw [hz, e])
          simp [this]
      rw [this]
  · have hb2 : m.authorBot = true := by simpa using hb
    simp [messageCreate, hb2]

/-- No command creates a warning entry. -/
theorem interactionCreate_warnings_none (s : State) (i : Interaction) (u : UserId)
    (hw : s.warnings u = none) : (interactionCreate s i).1.warnings u = none := by
  by_cases hi : i.isChatInputCommand = true
  · by_cases h1 : i.commandName = "setnumberchannel"
    · rw [interactionCreate_setnumberchannel s i hi h1]
      split <;> exact hw
    · by_cases h2 : i.commandName = "resetsequence"
      · rw [interactionCreate_resetsequence s i hi h2]
        split <;> exact hw
      · by_cases h3 : i.commandName = "unbanall"
        · rw [interactionCreate_unbanall s i hi h3]
          split
          · split
            · split <;> exact hw
            · exact hw
          · exact hw
        · by_cases h4 : i.commandName = "resetwarn"
          · rw [interactionCreate_resetwarn s i hi h4]
            split
            · split
              · split
                · rename_i user _ _
                  show Function.update s.warnings user.id none u = none
                  by_cases hu : u = user.id
                  · rw [hu, Function.update_same]
                  · rw [Function.update_noteq hu]
                    exact hw
                · exact hw
              · exact hw
            · exact hw
          · rw [interactionCreate_other s i hi h1 h2 h3 h4]
            exact hw
  · have hf : i.isChatInputCommand = false := by simpa using hi
    simp [interactionCreate, hf, hw]

/-- A user without an entry stays without one as long as the user makes no
wrong guess. -/
theorem run_warnings_none (u : UserId) (es : List Event) (s : State)
    (hw : s.warnings u = none) (h : NoWrongGuessBy u s es) :
    (run s es).1.warnings u = none := by
  induction es generalizing s with
  | nil => exact hw
  | cons e es ih =>
    rw [run_cons]
    cases e with
    | interaction i =>
      exact ih _ (interactionCreate_warnings_none s i u hw) h
    | message m =>
      obtain ⟨h1, h2⟩ := h
      refine ih _ ?_ h2
      show (messageCreate s m).1.warnings u = none
      rw [messageCreate_warnings_of_not_wrong s m u h1]
      exact hw

/-- A message of a user in the configured channel exactly one of whose
numbers is wrong: the numbers before it and after it are affirmed, and the
wrong one is handled as in `handleNumber_wrong`, with the number expected at
its turn. -/
theorem messageCreate_one_wrong (s : State) (m : Message) (c : ChannelId)
    (front : List Number) (x : Number) (back : List Number)
    (hs : s.allowedChannelId = some c) (hb : m.authorBot = false) (hc : m.channelId = c)
    (hnum : numbers m.content = front ++ x :: back)
    (hfront : AllCorrect s.expectedNumber front)
    (hx : x ≠ Number.finite (advance s.expectedNumber front.length))
    (hback : AllCorrect (advance s.expectedNumber front.length) back) :
    (messageCreate s m).1.warnings m.authorId =
      some (countAfterWrong (s.warnings m.authorId)) ∧
    (messageCreate s m).2 =
      List.replicate front.length (Action.send Feedback.correct) ++
        [Action.deleteMessage,
          Action.send (warningFeedback (advance s.expectedNumber front.length) m.authorId
            (countAfterWrong (s.warnings m.authorId)))] ++
        List.replicate back.length (Action.send Feedback.correct) := by
  have hlen : ¬ (numbers m.content).length = 0 := by
    rw [hnum]
    simp
  rw [messageCreate_active s m c hs hb hc, if_neg hlen, hnum, List.foldl_append,
    List.foldl_cons, foldl_handleNumber_allCorrect _ _ _ _ hfront,
    handleNumber_wrong _ _ _ _ hx, foldl_handleNumber_allCorrect _ _ _ _ hback]
  simp

/-- C8, counterexample. After `resetwarn` has removed the entry of user 1,
the next wrong guess of user 1 in the configured channel, the message `9 8`
while 5 is expected, holds two wrong numbers: it brings the count to 2, not
to 1, and sends the warning with 1 warning left after the one with 2 left. -/
theorem next_wrong_guess_counts_twice :
    (interactionCreate warnedState (exampleCommand "resetwarn" true)).1.warnings 1 = none ∧
    (interactionCreate warnedState (exampleCommand "resetwarn" true)).1.expectedNumber = 5 ∧
    numbers "9 8" = [Number.finite 9, Number.finite 8] ∧
    (messageCreate (interactionCreate warnedState (exampleCommand "resetwarn" true)).1
      ⟨false, 1, 7, "9 8"⟩).1.warnings 1 = some 2 ∧
    (messageCreate (interactionCreate warnedState (exampleCommand "resetwarn" true)).1
      ⟨false, 1, 7, "9 8"⟩).2 =
        [Action.deleteMessage, Action.send (Feedback.wrongNumber 5 2),
          Action.deleteMessage, Action.send (Feedback.wrongNumber 5 1)] := by
  decide

/-- C8, amended. `resetwarn` from an invoker with the permission, on a user
`u`. If `u` has a nonzero entry, the entry is removed, the reply confirms the
reset, and every other entry, `expectedNumber` and `allowedChannelId` are
unchanged; after any further events among which `u` makes no wrong guess, a
message of `u` in the configured channel exactly one of whose numbers, as
`parseInt` reads them, is not the expected one at its turn sets the count of
`u` to exactly 1, is deleted once, and is answered, besides the affirmations
of its other numbers, by the warning with 2 warnings left. If `u` has no entry,
the state is unchanged and the reply says that `u` has no warnings. -/
theorem resetwarn_restarts_count (s : State) (i : Interaction) (u : User)
    (hi : i.isChatInputCommand = true) (hn : i.commandName = "resetwarn")
    (hp : hasManageServerPermission i.member = true) (hu : i.user = some u) :
    (∀ count : Int, s.warnings u.id = some count → count ≠ 0 →
      (interactionCreate s i).2 =
        [Action.deferReply, Action.editReply (Reply.warningsReset u.tag)] ∧
      (interactionCreate s i).1.warnings u.id = none ∧
      (∀ v, v ≠ u.id → (interactionCreate s i).1.warnings v = s.warnings v) ∧
      (interactionCreate s i).1.expectedNumber = s.expectedNumber ∧
      (interactionCreate s i).1.allowedChannelId = s.allowedChannelId ∧
      (∀ (es : List Event) (m : Message) (c : ChannelId)
        (front : List Number) (x : Number) (back : List Number),
        NoWrongGuessBy u.id (interactionCreate s i).1 es →
        (run (interactionCreate s i).1 es).1.allowedChannelId = some c →
        m.authorBot = false → m.authorId = u.id → m.channelId = c →
        numbers m.content = front ++ x :: back →
        AllCorrect (run (interactionCreate s i).1 es).1.expectedNumber front →
        x ≠ Number.finite
          (advance (run (interactionCreate s i).1 es).1.expectedNumber front.length) →
        AllCorrect
          (advance (run (interactionCreate s i).1 es).1.expectedNumber front.length) back →
        (messageCreate (run (interactionCreate s i).1 es).1 m).1.warnings u.id = some 1 ∧
        (messageCreate (run (interactionCreate s i).1 es).1 m).2 =
          List.replicate front.length (Action.send Feedback.correct) ++
            [Action.deleteMessage,
              Action.send (Feedback.wrongNumber
                (advance (run (interactionCreate s i).1 es).1.expectedNumber front.length)
                2)] ++
            List.replicate back.length (Action.send Feedback.correct))) ∧
    (s.warnings u.id = none →
      interactionCreate s i =
        (s, [Action.deferReply, Action.editReply (Reply.noWarnings u.tag)])) := by
  constructor
  · intro count hcount h0
    have ht : truthy (s.warnings u.id) = true := by
      simp [hcount, truthy, h0]
    have hr : interactionCreate s i =
        ({ s with warnings := Function.update s.warnings u.id none },
          [Action.deferReply, Action.editReply (Reply.warningsReset u.tag)]) := by
      rw [interactionCreate_resetwarn s i hi hn, hp, hu]
      simp [ht]
    rw [hr]
    refine ⟨rfl, by simp, ?_, rfl, rfl, ?_⟩
    · intro v hv
      simp [Function.update, hv]
    · intro es m c front x back hno hch hb ha hc hnum hfront hx hback
      have hnone : (run { s with warnings := Function.update s.warnings u.id none }
          es).1.warnings u.id = none :=
        run_warnings_none u.id es _ (by simp) hno
      obtain ⟨h1, h2⟩ := messageCreate_one_wrong _ m c front x back hch hb hc hnum hfront hx hback
      rw [ha, hnone] at h1 h2
      have hfb : ∀ e : Int, warningFeedback e u.id (countAfterWrong none) =
          Feedback.wrongNumber e 2 := by
        intro e
        rw [warningFeedback_of_one_le _ _ _ (by decide)]
        rfl
      rw [hfb] at h2
      exact ⟨h1, h2⟩
  · intro hnone
    have ht : truthy (s.warnings u.id) = false := by
      simp [hnone, truthy]
    rw [interactionCreate_resetwarn s i hi hn, hp, hu]
    simp [ht]

/-- The reset of user 1 in `warnedState`; after `eventsBeforeNextWrongGuess`,
which leave 6 expected, the guess `4` of user 1, and likewise the message
`6 4`, whose first number is affirmed; and the reset of a user without an
entry. -/
theorem resetwarn_restarts_count_witness :
    ((interactionCreate warnedState (exampleCommand "resetwarn" true)).2 =
        [Action.deferReply, Action.editReply (Reply.warningsReset "fox#0001")] ∧
      (interactionCreate warnedState (exampleCommand "resetwarn" true)).1.warnings 1 = none) ∧
    ((messageCreate
        (run (interactionCreate warnedState (exampleCommand "resetwarn" true)).1
          eventsBeforeNextWrongGuess).1 ⟨false, 1, 7, "4"⟩).1.warnings 1 = some 1 ∧
      (messageCreate
        (run (interactionCreate warnedState (exampleCommand "resetwarn" true)).1
          eventsBeforeNextWrongGuess).1 ⟨false, 1, 7, "4"⟩).2 =
        [Action.deleteMessage, Action.send (Feedback.wrongNumber 6 2)]) ∧
    ((messageCreate
        (run (interactionCreate warnedState (exampleCommand "resetwarn" true)).1
          eventsBeforeNextWrongGuess).1 ⟨false, 1, 7, "6 4"⟩).1.warnings 1 = some 1 ∧
      (messageCreate
        (run (interactionCreate warnedState (exampleCommand "resetwarn" true)).1
          eventsBeforeNextWrongGuess).1 ⟨false, 1, 7, "6 4"⟩).2 =
        [Action.send Feedback.correct, Action.deleteMessage,
          Action.send (Feedback.wrongNumber 7 2)]) ∧
    interactionCreate (exampleState 5) (exampleCommand "resetwarn" true) =
      (exampleState 5, [Action.deferReply, Action.editReply (Reply.noWarnings "fox#0001")]) :=
  have h := (resetwarn_restarts_count warnedState (exampleCommand "resetwarn" true)
    ⟨1, "fox#0001"⟩ rfl rfl rfl rfl).1 2 rfl (by decide)
  have hno : NoWrongGuessBy 1
      (interactionCreate warnedState (exampleCommand "resetwarn" true)).1
      eventsBeforeNextWrongGuess := by
    refine ⟨?_, ?_, trivial⟩
    · rintro ⟨_, _, h3, _⟩
      exact absurd h3 (by decide)
    · rintro ⟨_, _, _, h4⟩
      exact h4 (by decide)
  ⟨⟨h.1, h.2.1⟩,
    h.2.2.2.2.2 eventsBeforeNextWrongGuess ⟨false, 1, 7, "4"⟩ 7 [] (Number.finite 4) []
      hno (by decide) rfl rfl rfl (by decide) (by decide) (by decide) (by decide),
    h.2.2.2.2.2 eventsBeforeNextWrongGuess ⟨false, 1, 7, "6 4"⟩ 7 [Number.finite 6]
      (Number.finite 4) [] hno (by decide) rfl rfl rfl (by decide) (by decide) (by decide)
      (by decide),
    (resetwarn_restarts_count (exampleState 5) (exampleCommand "resetwarn" true)
      ⟨1, "fox#0001"⟩ rfl rfl rfl rfl).2 rfl⟩

/-! ## Pieces that do not parse -/

/-- C9, the failing input. While 5 is expected, the messages `5abc` and `5.9`
are affirmed and move `expectedNumber` to 6, although neither piece is an
optionally signed run of decimal digits: `parseInt` reads their leading digit.
With the piece removed the body is empty, and the empty message is deleted and
leaves `expectedNumber` at 5. -/
theorem non_integer_token_not_discarded :
    specIsIntegerToken "5abc".toList = false ∧
    specIsIntegerToken "5.9".toList = false ∧
    keepTokens specIsIntegerToken "5abc" = "" ∧
    (messageCreate (exampleState 5) ⟨false, 1, 7, "5abc"⟩).2 =
      [Action.send Feedback.correct] ∧
    (messageCreate (exampleState 5) ⟨false, 1, 7, "5abc"⟩).1.expectedNumber = 6 ∧
    (messageCreate (exampleState 5) ⟨false, 1, 7, "5.9"⟩).2 =
      [Action.send Feedback.correct] ∧
    (messageCreate (exampleState 5) ⟨false, 1, 7, "5.9"⟩).1.expectedNumber = 6 ∧
    (messageCreate (exampleState 5) ⟨false, 1, 7, keepTokens specIsIntegerToken "5abc"⟩).2 =
      [Action.deleteMessage] ∧
    (messageCreate (exampleState 5)
      ⟨false, 1, 7, keepTokens specIsIntegerToken "5abc"⟩).1.expectedNumber = 5 := by
  decide

/-- In front of a character that is not white space the flag of the scan
does not matter. -/
theorem splitGo_cons_of_not_ws (b : Bool) (c : Char) (cs : List Char)
    (hc : isWhiteSpace c = false) : splitGo b (c :: cs) = splitGo false (c :: cs) := by
  simp [splitGo, hc]

/-- The pieces hold no white space. -/
theorem not_ws_of_mem_splitGo (b : Bool) (s : List Char) :
    ∀ t ∈ splitGo b s, ∀ c ∈ t, isWhiteSpace c = false := by
  induction s generalizing b with
  | nil => simp [splitGo]
  | cons c cs ih =>
    intro t ht
    unfold splitGo at ht
    split at ht
    · split at ht
      · exact ih true t ht
      · rcases List.mem_cons.1 ht with rfl | h
        · simp
        · exact ih true t h
    · rename_i hc
      split at ht
      · rename_i u us hu
        rcases List.mem_cons.1 ht with rfl | h
        · intro d hd
          rcases List.mem_cons.1 hd with rfl | hd2
          · simpa using hc
          · exact ih false u (by rw [hu]; exact List.mem_cons_self _ _) d hd2
        · exact ih false t (by rw [hu]; exact List.mem_cons_of_mem _ h)
      · rcases List.mem_singleton.1 ht with rfl
        intro d hd
        rcases List.mem_singleton.1 hd with rfl
        simpa using hc

/-- A word without white space is one piece. -/
theorem splitGo_word (t : List Char) (ht : ∀ c ∈ t, isWhiteSpace c = false) :
    splitGo false t = [t] := by
  induction t with
  | nil => rfl
  | cons c cs ih =>
    have hc : isWhiteSpace c = false := ht c (List.mem_cons_self _ _)
    have := ih (fun d hd => ht d (List.mem_cons_of_mem _ hd))
    simp [splitGo, hc, this]

/-- A word without white space, then a space: the word is the first
piece. -/
theorem splitGo_word_space (t r : List Char) (ht : ∀ c ∈ t, isWhiteSpace c = false) :
    splitGo false (t ++ Char.ofNat 32 :: r) = t :: splitGo true r := by
  induction t with
  | nil =>
    have h32 : isWhiteSpace (Char.ofNat 32) = true := by decide
    simp [splitGo, h32]
  | cons c cs ih =>
    have hc : isWhiteSpace c = false := ht c (List.mem_cons_self _ _)
    have := ih (fun d hd => ht d (List.mem_cons_of_mem _ hd))
    simp [splitGo, hc, this]

theorem split_joinTokens (ts : List (List Char)) (hne : ts ≠ []) (h : GoodTokens ts) :
    split (joinTokens ts) = ts := by
  unfold split
  induction ts with
  | nil => exact absurd rfl hne
  | cons t ts ih =>
    cases ts with
    | nil => exact splitGo_word t (h t (List.mem_cons_self _ _)).2
    | cons u us =>
      have hu := h u (List.mem_cons_of_mem _ (List.mem_cons_self _ _))
      have ih2 := ih (by simp) (fun x hx => h x (List.mem_cons_of_mem _ hx))
      show splitGo false (t ++ Char.ofNat 32 :: joinTokens (u :: us)) = t :: u :: us
      rw [splitGo_word_space t _ (h t (List.mem_cons_self _ _)).2]
      cases u with
      | nil => exact absurd rfl hu.1
      | cons d ds =>
        have hd : isWhiteSpace d = false := hu.2 d (List.mem_cons_self _ _)
        have hj : ∃ rest, joinTokens ((d :: ds) :: us) = d :: rest := by
          cases us with
          | nil => exact ⟨ds, rfl⟩
          | cons v vs => exact ⟨ds ++ Char.ofNat 32 :: joinTokens (v :: vs), rfl⟩
        obtain ⟨rest, hrest⟩ := hj
        rw [hrest, splitGo_cons_of_not_ws true d rest hd, ← hrest, ih2]

/-- Joined good pieces end in a character that is not white space. -/
theorem joinTokens_eq_append_last (ts : List (List Char)) (hne : ts ≠ [])
    (h : GoodTokens ts) :
    ∃ front c, joinTokens ts = front ++ [c] ∧ isWhiteSpace c = false := by
  induction ts with
  | nil => exact absurd rfl hne
  | cons t ts ih =>
    cases ts with
    | nil =>
      have ht := h t (List.mem_cons_self _ _)
      refine ⟨t.dropLast, t.getLast ht.1, ?_, ht.2 _ (List.getLast_mem ht.1)⟩
      exact (List.dropLast_append_getLast ht.1).symm
    | cons u us =>
      obtain ⟨front, c, hf, hc⟩ := ih (by simp) (fun x hx => h x (List.mem_cons_of_mem _ hx))
      refine ⟨t ++ Char.ofNat 32 :: front, c, ?_, hc⟩
      show t ++ Char.ofNat 32 :: joinTokens (u :: us) = (t ++ Char.ofNat 32 :: front) ++ [c]
      rw [hf]
      simp

/-- Joined good pieces begin with a character that is not white space. -/
theorem joinTokens_eq_cons (ts : List (List Char)) (hne : ts ≠ []) (h : GoodTokens ts) :
    ∃ c rest, joinTokens ts = c :: rest ∧ isWhiteSpace c = false := by
  cases ts with
  | nil => exact absurd rfl hne
  | cons t ts =>
    have ht := h t (List.mem_cons_self _ _)
    cases t with
    | nil => exact absurd rfl ht.1
    | cons d ds =>
      have hd : isWhiteSpace d = false := ht.2 d (List.mem_cons_self _ _)
      cases ts with
      | nil => exact ⟨d, ds, rfl, hd⟩
      | cons v vs => exact ⟨d, ds ++ Char.ofNat 32 :: joinTokens (v :: vs), rfl, hd⟩

theorem trim_joinTokens (ts : List (List Char)) (h : GoodTokens ts) :
    trim (joinTokens ts) = joinTokens ts := by
  by_cases hne : ts = []
  · subst hne
    rfl
  · obtain ⟨c, rest, h1, hc⟩ := joinTokens_eq_cons ts hne h
    obtain ⟨front, d, h2, hd⟩ := joinTokens_eq_append_last ts hne h
    unfold trim
    have e1 : (joinTokens ts).dropWhile isWhiteSpace = joinTokens ts := by
      rw [h1]
      simp [List.dropWhile, hc]
    rw [e1, h2]
    simp [List.dropWhile, hd]

/-- Keeping the pieces that parse does not change the numbers read. -/
theorem numbers_keepTokens (content : String) :
    numbers (keepTokens parses content) = numbers content := by
  have hgood : GoodTokens ((tokens content).filter parses) := by
    intro t ht
    obtain ⟨hmem, hp⟩ := List.mem_filter.1 ht
    refine ⟨?_, not_ws_of_mem_splitGo false _ t hmem⟩
    rintro rfl
    exact absurd hp (by decide)
  have hfm : ∀ l : List (List Char),
      ((l.filter parses).map parseInt).filterMap id = (l.map parseInt).filterMap id := by
    intro l
    induction l with
    | nil => rfl
    | cons x xs ih =>
      by_cases hx : parses x = true
      · rw [List.filter_cons_of_pos hx, List.map_cons, List.map_cons]
        cases hv : parseInt x with
        | none => simp [ih]
        | some v => simp [ih]
      · rw [List.filter_cons_of_neg hx, List.map_cons, ih]
        have : parseInt x = none := by
          simpa [parses] using hx
        simp [this]
  show ((tokens (keepTokens parses content)).map parseInt).filterMap id =
    ((tokens content).map parseInt).filterMap id
  rw [← hfm (tokens content)]
  by_cases hne : (tokens content).filter parses = []
  · have hk : keepTokens parses content = "" := by
      unfold keepTokens
      rw [hne]
      rfl
    rw [hk, hne]
    decide
  · have ht : tokens (keepTokens parses content) = (tokens content).filter parses := by
      show split (trim (joinTokens ((tokens content).filter parses))) = _
      rw [trim_joinTokens _ hgood, split_joinTokens _ hne hgood]
    rw [ht]

theorem leadingDigits_decimal (r : List Char) (h : r.all isDecimalDigit = true) :
    leadingDigits 10 r = r.map (fun c => c.toNat - 48) := by
  induction r with
  | nil => rfl
  | cons c cs ih =>
    simp only [List.all_cons, Bool.and_eq_true] at h
    have hc : 48 ≤ c.toNat ∧ c.toNat ≤ 57 := by simpa [isDecimalDigit] using h.1
    have hd : digitValue 10 c = some (c.toNat - 48) := by
      unfold digitValue
      simp only [hc, and_self, if_true, Option.filter]
      have : c.toNat - 48 < 10 := by omega
      simp [this]
    simp [leadingDigits, hd, ih h.2]

theorem readRadix_decimal (r : List Char) (h : r.all isDecimalDigit = true) :
    readRadix r = (10, r) := by
  unfold readRadix
  split
  · simp [isDecimalDigit] at h
  · simp [isDecimalDigit] at h
  · rfl

theorem not_ws_of_decimal (c : Char) (h : isDecimalDigit c = true) :
    isWhiteSpace c = false := by
  have hc : 48 ≤ c.toNat ∧ c.toNat ≤ 57 := by simpa [isDecimalDigit] using h
  unfold isWhiteSpace
  simp only [Bool.or_eq_false_iff, beq_eq_false_iff_ne, Bool.and_eq_false_iff,
    decide_eq_false_iff_not]
  omega

/-- The digits of a non-empty run of decimal digits are read in radix 10. -/
theorem parseInt_digits (neg : Bool) (r : List Char) (hne : r ≠ [])
    (h : r.all isDecimalDigit = true) :
    (if (leadingDigits (readRadix r).1 (readRadix r).2).isEmpty then none
      else if neg then
        some (toNumber (-(digitsValue (readRadix r).1
          (leadingDigits (readRadix r).1 (readRadix r).2) : Int)))
      else some (toNumber (digitsValue (readRadix r).1
        (leadingDigits (readRadix r).1 (readRadix r).2) : Int))) =
      some (toNumber (if neg then -(decimalValue r : Int) else (decimalValue r : Int))) := by
  rw [readRadix_decimal r h, leadingDigits_decimal r h]
  cases r with
  | nil => exact absurd rfl hne
  | cons c cs =>
    cases neg <;> simp [decimalValue]

/-- An optionally signed run of decimal digits parses to the double nearest
to the integer it writes. -/
theorem parseInt_of_specIsIntegerToken (t : List Char) (h : specIsIntegerToken t = true) :
    parseInt t = some (toNumber (specIntegerValue t)) := by
  unfold specIsIntegerToken at h
  split at h
  · rename_i r
    simp only [Bool.and_eq_true, Bool.not_eq_true', List.isEmpty_eq_false] at h
    have hw : isWhiteSpace (Char.ofNat 45) = false := by decide
    have hd : List.dropWhile isWhiteSpace (Char.ofNat 45 :: r) = Char.ofNat 45 :: r := by
      simp [List.dropWhile, hw]
    show (let signed := readSign (List.dropWhile isWhiteSpace (Char.ofNat 45 :: r)); _) = _
    rw [hd]
    exact parseInt_digits true r h.1 h.2
  · rename_i r
    simp only [Bool.and_eq_true, Bool.not_eq_true', List.isEmpty_eq_false] at h
    have hw : isWhiteSpace (Char.ofNat 43) = false := by decide
    have hd : List.dropWhile isWhiteSpace (Char.ofNat 43 :: r) = Char.ofNat 43 :: r := by
      simp [List.dropWhile, hw]
    show (let signed := readSign (List.dropWhile isWhiteSpace (Char.ofNat 43 :: r)); _) = _
    rw [hd]
    exact parseInt_digits false r h.1 h.2
  · rename_i h1 h2
    simp only [Bool.and_eq_true, Bool.not_eq_true', List.isEmpty_eq_false] at h
    cases t with
    | nil => exact absurd rfl h.1
    | cons c cs =>
      have hc : isDecimalDigit c = true := by
        have := h.2
        simp only [List.all_cons, Bool.and_eq_true] at this
        exact this.1
      have hd : List.dropWhile isWhiteSpace (c :: cs) = c :: cs := by
        simp [List.dropWhile, not_ws_of_decimal c hc]
      have hs : readSign (c :: cs) = (false, c :: cs) := by
        unfold readSign
        split
        · rename_i heq
          exact absurd heq (h1 _)
        · rename_i heq
          exact absurd heq (h2 _)
        · rfl
      have hv : specIntegerValue (c :: cs) = (decimalValue (c :: cs) : Int) := by
        unfold specIntegerValue
        split
        · rename_i heq
          exact absurd heq (h1 _)
        · rename_i heq
          exact absurd heq (h2 _)
        · rfl
      rw [hv]
      unfold parseInt
      simp only [hd, hs]
      exact parseInt_digits false (c :: cs) h.1 h.2

/-- On a message each of whose pieces is an optionally signed run of decimal
digits or does not parse at all, the numbers read are the doubles nearest to
the integers written by the pieces of the first kind, in order. -/
theorem numbers_of_integer_tokens (content : String)
    (h : ∀ t ∈ tokens content, specIsIntegerToken t = true ∨ parseInt t = none) :
    numbers content =
      ((tokens content).filter specIsIntegerToken).map
        (fun t => toNumber (specIntegerValue t)) := by
  unfold numbers
  generalize tokens content = l at h
  induction l with
  | nil => rfl
  | cons x xs ih =>
    have ih2 := ih (fun y hy => h y (List.mem_cons_of_mem _ hy))
    by_cases hx : specIsIntegerToken x = true
    · rw [List.filter_cons_of_pos hx, List.map_cons, List.map_cons,
        parseInt_of_specIsIntegerToken x hx]
      simp [ih2]
    · rcases h x (List.mem_cons_self _ _) with h1 | h1
      · exact absurd h1 hx
      · rw [List.filter_cons_of_neg hx, List.map_cons, h1]
        simp [ih2]

/-- The texts of the three feedback messages for 5 expected and user 1. -/
theorem feedback_text_examples :
    Feedback.correct.text = "Correct!" ∧
    (Feedback.wrongNumber 5 2).text =
      "⚠️ Wrong number! The next number should be **5**. You have 2 warning(s) left." ∧
    (Feedback.maxWarningsReached 1).text =
      "<@1>, you have reached the maximum number of warnings." := by
  decide

/-- The pieces from which `parseInt` reads no number contribute nothing:
handling a message is the same, in state and in calls, as handling the message
with only the pieces that parse kept in order. -/
theorem messageCreate_keepTokens (s : State) (m : Message) :
    messageCreate s m = messageCreate s { m with content := keepTokens parses m.content } := by
  unfold messageCreate
  simp only [numbers_keepTokens]

/-! ## Examples of reading numbers -/

/-- Readings of `parseInt`: an integer, a leading digit, a hexadecimal number,
no number, the rounding of 2^53 + 1 to 2^53 in decimal and in hexadecimal, and
the rounding of 2^53 + 3 up to 2^53 + 4. -/
theorem parseInt_examples :
    parseInt "42".toList = some (Number.finite 42) ∧
    parseInt "-7".toList = some (Number.finite (-7)) ∧
    parseInt "5abc".toList = some (Number.finite 5) ∧
    parseInt "0x1F".toList = some (Number.finite 31) ∧
    parseInt "hello".toList = none ∧
    parseInt "".toList = none ∧
    parseInt "9007199254740993".toList = some (Number.finite 9007199254740992) ∧
    parseInt "0x20000000000001".toList = some (Number.finite 9007199254740992) ∧
    parseInt "9007199254740995".toList = some (Number.finite 9007199254740996) := by
  decide

set_option maxRecDepth 100000 in
set_option exponentiation.threshold 2000 in
/-- A run of 310 digits is read as an infinity, which is never the expected
number: the message is handled as a wrong guess. -/
theorem parseInt_infinity_example :
    parseInt (List.replicate 310 (Char.ofNat 57)) = some (Number.infinity false) ∧
    (messageCreate (exampleState 5)
      ⟨false, 1, 7, String.mk (List.replicate 310 (Char.ofNat 57))⟩).2 =
        [Action.deleteMessage, Action.send (Feedback.wrongNumber 5 2)] := by
  decide

end ArticFox
